import Mathlib

/-!
Verification development for the `fcm` Go package: a shallow embedding of its
message data model, JSON codecs, micro-format codecs (duration, color) and the
validation engine, together with theorems settling the specified properties.

Modelling conventions, used throughout:
* Go `int64` / `time.Duration` values are embedded as `Int`; where a claim's
  range makes 64-bit overflow impossible the bound `d < 2 ^ 63` appears as a
  hypothesis instead of wrapping arithmetic.
* Go strings are ASCII in every input the claims concern; they are embedded as
  Lean `String` and manipulated through their `List Char` data.
* A Go call that can fail returns `GoRes`: `ok`, `err` (an `error` return) or
  `panics` (a runtime panic, e.g. an out-of-range string slice).
-/

/-- Result of running a piece of Go code: a value, a returned `error`, or a
runtime panic. -/
inductive GoRes (α : Type) where
  | ok (a : α)
  | err (e : String)
  | panics
  deriving DecidableEq

instance : Monad GoRes where
  pure := GoRes.ok
  bind := fun x f =>
    match x with
    | .ok a => f a
    | .err e => .err e
    | .panics => .panics

/-- Whether a `GoRes` is a returned error (not a success, not a panic). -/
def GoRes.isErr {α : Type} : GoRes α → Bool
  | .err _ => true
  | _ => false

theorem GoRes.ok_bind {α β : Type} (a : α) (f : α → GoRes β) :
    (GoRes.ok a >>= f) = f a := rfl

theorem GoRes.err_bind {α β : Type} (e : String) (f : α → GoRes β) :
    (GoRes.err e >>= f) = GoRes.err e := rfl

theorem GoRes.panics_bind {α β : Type} (f : α → GoRes β) :
    (GoRes.panics >>= f) = GoRes.panics := rfl

theorem GoRes.bind_eq_ok {α β : Type} {x : GoRes α} {f : α → GoRes β} {b : β}
    (h : (x >>= f) = GoRes.ok b) : ∃ a, x = GoRes.ok a ∧ f a = GoRes.ok b := by
  cases x with
  | ok a => exact ⟨a, rfl, h⟩
  | err e => exact absurd h (by simp [Bind.bind, GoRes.err])
  | panics => exact absurd h (by simp [Bind.bind, GoRes.panics])

/-! ## Decimal digits: printing and parsing

`strconv.ParseInt` and `fmt.Sprintf("%d", ...)` are embedded over `List Char`.
The printer uses explicit fuel so that it is structural recursion and every
concrete call reduces inside the kernel. -/

/-- The character for the decimal digit `n` (`n < 10`). -/
def digitChar (n : Nat) : Char :=
  match n with
  | 0 => '0' | 1 => '1' | 2 => '2' | 3 => '3' | 4 => '4'
  | 5 => '5' | 6 => '6' | 7 => '7' | 8 => '8' | _ => '9'

/-- Numeric value of a decimal digit character. -/
def digitVal (c : Char) : Nat := c.toNat - 48

/-- Decimal digits of `n`, most significant first; `fuel` bounds the recursion
and any `fuel > n` gives the true digits. -/
def natDigitsAux : Nat → Nat → List Char
  | 0, _ => []
  | fuel + 1, n =>
    if n < 10 then [digitChar n]
    else natDigitsAux fuel (n / 10) ++ [digitChar (n % 10)]

/-- Decimal digits of `n`, most significant first (`fmt.Sprintf("%d", n)` for
a non-negative value). -/
def natDigits (n : Nat) : List Char := natDigitsAux (n + 1) n

/-- Decimal rendering of an `int64` value, `fmt.Sprintf("%d", i)`. -/
def intDigits (i : Int) : List Char :=
  if i < 0 then '-' :: natDigits (-i).toNat else natDigits i.toNat

/-- Value of a list of decimal digit characters, accumulated left to right the
way `strconv.ParseInt` does. -/
def digitsVal (cs : List Char) : Nat :=
  cs.foldl (fun acc c => acc * 10 + digitVal c) 0

/-- Digit-string part of `strconv.ParseInt`: all characters must be decimal
digits, the list must be non-empty, and the value must fit in `int64` with the
given sign. -/
def parsePosDigits (ds : List Char) (neg : Bool) : GoRes Int :=
  if ds = [] then .err "invalid syntax"
  else if ds.all Char.isDigit then
    if neg then
      if digitsVal ds ≤ 2 ^ 63 then .ok (-(digitsVal ds : Int))
      else .err "value out of range"
    else
      if digitsVal ds ≤ 2 ^ 63 - 1 then .ok (digitsVal ds : Int)
      else .err "value out of range"
  else .err "invalid syntax"

/-- Embedding of `strconv.ParseInt(s, 10, 64)`: optional sign, then decimal
digits; empty digit strings and non-digit characters are syntax errors and
values outside the `int64` range are range errors. -/
def parseIntList (cs : List Char) : GoRes Int :=
  match cs with
  | [] => .err "invalid syntax"
  | c :: rest =>
    if c = '-' then parsePosDigits rest true
    else if c = '+' then parsePosDigits rest false
    else parsePosDigits (c :: rest) false

/-! ## Go string helpers over `List Char` -/

/-- `strings.Split(s, ".")`-style splitting on a single separator character. -/
def splitCh (sep : Char) : List Char → List (List Char)
  | [] => [[]]
  | c :: cs =>
    let r := splitCh sep cs
    if c = sep then [] :: r
    else
      match r with
      | [] => [[c]]
      | a :: as => (c :: a) :: as

/-- `strings.TrimSuffix(s, "s")`: drop one trailing `'s'` when present. -/
def trimSuffixS (cs : List Char) : List Char :=
  if cs.getLast? = some 's' then cs.dropLast else cs

/-- `strings.TrimLeft(s, "0")`: drop leading `'0'` characters. -/
def trimLeftZeros (cs : List Char) : List Char :=
  cs.dropWhile (fun c => c = '0')

/-- Left-pad the decimal digits of `n` with `'0'` to width 9:
`fmt.Sprintf("%09d", n)` for `0 ≤ n` with at most nine digits. -/
def pad9 (n : Nat) : List Char :=
  List.replicate (9 - (natDigits n).length) '0' ++ natDigits n

/-! ## Duration micro-format codec (source: `durationToString`,
`stringToDuration`) -/

/-- Embedding of `durationToString`: decompose into whole seconds and a
nanosecond remainder using Go's truncating `int64` division, then print
either the whole-second or the fractional form. -/
def durationToStringL (d : Int) : List Char :=
  let seconds : Int := d.tdiv 1000000000
  let nanos : Int := d - seconds * 1000000000
  if 0 < nanos then intDigits seconds ++ '.' :: (pad9 nanos.toNat ++ ['s'])
  else intDigits seconds ++ ['s']

/-- Embedding of `stringToDuration`: strip the trailing `"s"`, split on `"."`,
require one or two segments, parse integer seconds and (after trimming leading
zeros) integer nanoseconds. -/
def stringToDurationL (cs : List Char) : GoRes Int :=
  match splitCh '.' (trimSuffixS cs) with
  | [a] => do
    let secs ← parseIntList a
    pure (secs * 1000000000)
  | [a, b] => do
    let secs ← parseIntList a
    let nanos ← parseIntList (trimLeftZeros b)
    pure (secs * 1000000000 + nanos)
  | _ => .err "incorrect number of segments in ttl"

/-- String-level `durationToString`. -/
def durationToString (d : Int) : String := String.mk (durationToStringL d)

/-- String-level `stringToDuration`. -/
def stringToDuration (s : String) : GoRes Int := stringToDurationL s.data

/-- Reading of C8's words "parsed ... after stripping trailing zeros": drop
trailing `'0'` characters. The source instead calls `strings.TrimLeft`. -/
def trimRightZeros (cs : List Char) : List Char :=
  (cs.reverse.dropWhile (fun c => c = '0')).reverse

/-- The decode procedure exactly as claim C8 states it, with the fractional
segment stripped of trailing zeros before parsing. Compare with
`stringToDurationL`, the embedding of the source. -/
def stringToDurationC8SpecL (cs : List Char) : GoRes Int :=
  match splitCh '.' (trimSuffixS cs) with
  | [a] => do
    let secs ← parseIntList a
    pure (secs * 1000000000)
  | [a, b] => do
    let secs ← parseIntList a
    let nanos ← parseIntList (trimRightZeros b)
    pure (secs * 1000000000 + nanos)
  | _ => .err "incorrect number of segments in ttl"

/-- String-level form of `stringToDurationC8SpecL`. -/
def stringToDurationC8Spec (s : String) : GoRes Int := stringToDurationC8SpecL s.data

/-- The decode procedure of claim C8 amended to strip LEADING zeros from the
fractional segment, stated through the claim's own step list (trailing-`s`
strip, dot split, segment-count check, per-segment integer parse). -/
def stringToDurationC8Amended (s : String) : GoRes Int :=
  let segs := splitCh '.' (trimSuffixS s.data)
  if segs.length = 1 ∨ segs.length = 2 then do
    let secs ← parseIntList (segs.headD [])
    if segs.length = 2 then do
      let nanos ← parseIntList (trimLeftZeros (segs.getLastD []))
      pure (secs * 1000000000 + nanos)
    else pure (secs * 1000000000)
  else .err "incorrect number of segments in ttl"

/-! ## JSON wire documents

Objects are association lists in emission order; Go marshals its maps with
sorted keys, which `sortByKey` reproduces. Numbers are rationals: every
numeric value the claims concern (integers, 0/1 flags, volumes, color
channels of the form k/255) is represented exactly by both `float64` and `ℚ`,
so the embedding loses nothing on them. -/
inductive Json where
  | null
  | bool (b : Bool)
  | num (q : ℚ)
  | str (s : String)
  | arr (elems : List Json)
  | obj (fields : List (String × Json))

/-- First binding of a key in an object, the object's map semantics
(wire objects are assumed free of duplicate keys, as every Go-marshaled
object is). -/
def lookupJ (kvs : List (String × Json)) (k : String) : Option Json :=
  match kvs with
  | [] => none
  | (k2, v) :: rest => if k2 = k then some v else lookupJ rest k

/-- Remove every binding whose key occurs in `keys` (the decoder's
`delete(allFields, k)` loop). -/
def dropKeys (kvs : List (String × Json)) (keys : List String) : List (String × Json) :=
  kvs.filter (fun kv => !(keys.contains kv.1))

/-- The custom-field bag left after deleting the standard keys: `nil` when
nothing remains, mirroring `if len(allFields) > 0`. -/
def customBag (kvs : List (String × Json)) (keys : List String) :
    Option (List (String × Json)) :=
  if (dropKeys kvs keys).isEmpty then none else some (dropKeys kvs keys)

/-- Go's `%q` on the ASCII strings the claims concern: wrap in quotes. -/
def goQuote (s : String) : String := "\"" ++ s ++ "\""

/-- Byte-wise (here: character-value) comparison used by Go when it marshals
map keys in sorted order. -/
def charListLeb : List Char → List Char → Bool
  | [], _ => true
  | _ :: _, [] => false
  | a :: as, b :: bs =>
    if a.val < b.val then true
    else if b.val < a.val then false
    else charListLeb as bs

def strLeb (a b : String) : Bool := charListLeb a.data b.data

def insertByKey (kv : String × Json) : List (String × Json) → List (String × Json)
  | [] => [kv]
  | x :: xs => if strLeb kv.1 x.1 then kv :: x :: xs else x :: insertByKey kv xs

/-- Sort an object's bindings by key, as `encoding/json` does for Go maps. -/
def sortByKey (kvs : List (String × Json)) : List (String × Json) :=
  kvs.foldr insertByKey []

/-- Go map assignment `m[k] = v` on the association-list representation. -/
def mapSet (kvs : List (String × Json)) (k : String) (v : Json) :
    List (String × Json) :=
  if (lookupJ kvs k).isSome then
    kvs.map (fun kv => if kv.1 = k then (k, v) else kv)
  else kvs ++ [(k, v)]

/-- Marshal of a standard-field map overlaid with a custom-data bag
(`maps.Copy(m, customData)` / the `for k, v := range n.CustomData` loop),
then emitted in Go's sorted map-key order. -/
def mergeCustom (sf : List (String × Json)) (custom : Option (List (String × Json))) :
    Json :=
  Json.obj (sortByKey ((custom.getD []).foldl (fun m kv => mapSet m kv.1 kv.2) sf))

/-! ### Field encoders with `omitempty` semantics -/

def jStrOpt (k : String) (v : String) : List (String × Json) :=
  if v = "" then [] else [(k, Json.str v)]

def jTrueOpt (k : String) (b : Bool) : List (String × Json) :=
  if b then [(k, Json.bool true)] else []

def jStrArrOpt (k : String) (xs : List String) : List (String × Json) :=
  if xs.isEmpty then [] else [(k, Json.arr (xs.map Json.str))]

/-- Marshal of a `map[string]string` field (sorted keys). -/
def jStrMap (m : List (String × String)) : Json :=
  Json.obj (sortByKey (m.map (fun kv => (kv.1, Json.str kv.2))))

/-! ### Field decoders

Each models `encoding/json` filling one struct field of the given Go type:
an absent key or a JSON `null` leaves the zero value, a value of the wrong
shape is an unmarshal error. Key matching is by exact tag name (Go would in
addition accept case-insensitive matches; no claim involves such input). -/

def goDecStr (kvs : List (String × Json)) (k : String) : GoRes String :=
  match lookupJ kvs k with
  | none => .ok ""
  | some .null => .ok ""
  | some (.str s) => .ok s
  | some _ => .err ("cannot unmarshal into string field " ++ k)

def goDecBool (kvs : List (String × Json)) (k : String) : GoRes Bool :=
  match lookupJ kvs k with
  | none => .ok false
  | some .null => .ok false
  | some (.bool b) => .ok b
  | some _ => .err ("cannot unmarshal into bool field " ++ k)

/-- Integer field (`int` / `int64`): a fractional number is an error; the
`int64` overflow check is not modeled (no claim involves such magnitudes). -/
def goDecInt (kvs : List (String × Json)) (k : String) : GoRes Int :=
  match lookupJ kvs k with
  | none => .ok 0
  | some .null => .ok 0
  | some (.num q) => if q.den = 1 then .ok q.num else .err ("cannot unmarshal into int field " ++ k)
  | some _ => .err ("cannot unmarshal into int field " ++ k)

/-- Optional integer field (`*int` / `*int64`). -/
def goDecOptInt (kvs : List (String × Json)) (k : String) : GoRes (Option Int) :=
  match lookupJ kvs k with
  | none => .ok none
  | some .null => .ok none
  | some (.num q) => if q.den = 1 then .ok (some q.num) else .err ("cannot unmarshal into int field " ++ k)
  | some _ => .err ("cannot unmarshal into int field " ++ k)

/-- Number field (`float64`). -/
def goDecNum (kvs : List (String × Json)) (k : String) : GoRes ℚ :=
  match lookupJ kvs k with
  | none => .ok 0
  | some .null => .ok 0
  | some (.num q) => .ok q
  | some _ => .err ("cannot unmarshal into float field " ++ k)

def goDecStrElem (j : Json) : GoRes String :=
  match j with
  | .null => .ok ""
  | .str s => .ok s
  | _ => .err "cannot unmarshal into string element"

def goDecIntElem (j : Json) : GoRes Int :=
  match j with
  | .null => .ok 0
  | .num q => if q.den = 1 then .ok q.num else .err "cannot unmarshal into int element"
  | _ => .err "cannot unmarshal into int element"

def goDecStrList (kvs : List (String × Json)) (k : String) : GoRes (List String) :=
  match lookupJ kvs k with
  | none => .ok []
  | some .null => .ok []
  | some (.arr xs) => xs.mapM goDecStrElem
  | some _ => .err ("cannot unmarshal into string slice field " ++ k)

def goDecIntList (kvs : List (String × Json)) (k : String) : GoRes (List Int) :=
  match lookupJ kvs k with
  | none => .ok []
  | some .null => .ok []
  | some (.arr xs) => xs.mapM goDecIntElem
  | some _ => .err ("cannot unmarshal into int slice field " ++ k)

def goDecStrPair (kv : String × Json) : GoRes (String × String) :=
  match kv.2 with
  | .null => .ok (kv.1, "")
  | .str s => .ok (kv.1, s)
  | _ => .err "cannot unmarshal into string map value"

def goDecStrMap (kvs : List (String × Json)) (k : String) :
    GoRes (List (String × String)) :=
  match lookupJ kvs k with
  | none => .ok []
  | some .null => .ok []
  | some (.obj kvs2) => kvs2.mapM goDecStrPair
  | some _ => .err ("cannot unmarshal into string map field " ++ k)

/-- Optional nested field (a struct pointer): absent or `null` leaves `nil`,
anything else is fed to the nested decoder. -/
def goDecOpt {α : Type} (kvs : List (String × Json)) (k : String)
    (f : Json → GoRes α) : GoRes (Option α) :=
  match lookupJ kvs k with
  | none => .ok none
  | some .null => .ok none
  | some v => do
    let a ← f v
    pure (some a)

/-! ## Hexadecimal parsing and printing (for the color codec) -/

def hexVal (c : Char) : Option Nat :=
  if c.isDigit then some (c.toNat - 48)
  else if 'a' ≤ c ∧ c ≤ 'f' then some (c.toNat - 87)
  else if 'A' ≤ c ∧ c ≤ 'F' then some (c.toNat - 55)
  else none

def isHexDigit (c : Char) : Bool := (hexVal c).isSome

def hexDigitsVal (cs : List Char) : Nat :=
  cs.foldl (fun acc c => acc * 16 + (hexVal c).getD 0) 0

/-- Digit-string part of `strconv.ParseInt(s, 16, 32)`. -/
def parseHexDigits (ds : List Char) (neg : Bool) : GoRes Int :=
  if ds = [] then .err "invalid syntax"
  else if ds.all isHexDigit then
    if neg then
      if hexDigitsVal ds ≤ 2 ^ 31 then .ok (-(hexDigitsVal ds : Int))
      else .err "value out of range"
    else
      if hexDigitsVal ds ≤ 2 ^ 31 - 1 then .ok (hexDigitsVal ds : Int)
      else .err "value out of range"
  else .err "invalid syntax"

/-- Embedding of `strconv.ParseInt(s, 16, 32)`. -/
def parseHexList (cs : List Char) : GoRes Int :=
  match cs with
  | [] => .err "invalid syntax"
  | c :: rest =>
    if c = '-' then parseHexDigits rest true
    else if c = '+' then parseHexDigits rest false
    else parseHexDigits (c :: rest) false

/-- The uppercase hex digit character for `n < 16`. -/
def hexUpperChar (n : Nat) : Char :=
  match n with
  | 0 => '0' | 1 => '1' | 2 => '2' | 3 => '3' | 4 => '4'
  | 5 => '5' | 6 => '6' | 7 => '7' | 8 => '8' | 9 => '9'
  | 10 => 'A' | 11 => 'B' | 12 => 'C' | 13 => 'D' | 14 => 'E' | _ => 'F'

/-- Uppercase hex digits of `n`, most significant first, NO zero padding:
exactly `fmt.Sprintf("%X", n)` for a non-negative value. -/
def natHexAux : Nat → Nat → List Char
  | 0, _ => []
  | fuel + 1, n =>
    if n < 16 then [hexUpperChar n]
    else natHexAux fuel (n / 16) ++ [hexUpperChar (n % 16)]

def natHexDigits (n : Nat) : List Char := natHexAux (n + 1) n

/-- `fmt.Sprintf("%X", i)` for an integer value. -/
def intHexDigits (i : Int) : List Char :=
  if i < 0 then '-' :: natHexDigits (-i).toNat else natHexDigits i.toNat

/-! ## The color codec (source: `color`, `newColor`, `color.toString`)

Channels are rationals standing for the `float64` values `k / 255.0`. For
every `k` in `0..255`, `float64` arithmetic gives `int((k/255.0)*255.0) = k`
(checked exhaustively over IEEE doubles), so on every color `newColor`
produces the rational model and the Go code agree exactly. -/
structure color where
  red : ℚ
  green : ℚ
  blue : ℚ
  alpha : ℚ
  deriving DecidableEq

/-- Go string slicing `s[a:b]`: out-of-range bounds are a runtime panic. -/
def goSlice (cs : List Char) (a b : Nat) : GoRes (List Char) :=
  if a ≤ b ∧ b ≤ cs.length then .ok ((cs.drop a).take (b - a)) else .panics

/-- Wrap a channel-parse failure the way `newColor` does:
`fmt.Errorf("failed to parse %s: %w", clr, err)`. -/
def wrapColorParseErr (clr : String) : GoRes Int → GoRes Int
  | .ok v => .ok v
  | .err e => .err ("failed to parse " ++ clr ++ ": " ++ e)
  | .panics => .panics

/-- Embedding of `newColor`: slice the channel hex pairs at fixed positions
1:3, 3:5, 5:7 (and 7:9 only when the string has length exactly 9) with no
length or `"#"` check, parse each pair, and normalize by 255. -/
def newColor (clr : String) : GoRes color := do
  let rs ← goSlice clr.data 1 3
  let red ← wrapColorParseErr clr (parseHexList rs)
  let gs ← goSlice clr.data 3 5
  let green ← wrapColorParseErr clr (parseHexList gs)
  let bs ← goSlice clr.data 5 7
  let blue ← wrapColorParseErr clr (parseHexList bs)
  let alpha ←
    if clr.data.length = 9 then do
      let as2 ← goSlice clr.data 7 9
      wrapColorParseErr clr (parseHexList as2)
    else pure 255
  pure { red := (red : ℚ) / 255, green := (green : ℚ) / 255,
         blue := (blue : ℚ) / 255, alpha := (alpha : ℚ) / 255 }

/-- Go's `int(f)` for the non-negative channel products: truncation toward
zero. -/
def ratTrunc (q : ℚ) : Int := q.num.tdiv (q.den : Int)

/-- Embedding of `color.toString`: denormalize each channel and format with
`%X` (unpadded uppercase hex), omitting the alpha component when it equals
255. -/
def color.toString (c : color) : String :=
  let red := ratTrunc (c.red * 255)
  let green := ratTrunc (c.green * 255)
  let blue := ratTrunc (c.blue * 255)
  let alpha := ratTrunc (c.alpha * 255)
  if alpha = 255 then
    String.mk ('#' :: (intHexDigits red ++ intHexDigits green ++ intHexDigits blue))
  else
    String.mk ('#' :: (intHexDigits red ++ intHexDigits green ++
      intHexDigits blue ++ intHexDigits alpha))

/-! ## LightSettings (source: `LightSettings`, its marshal and unmarshal) -/

structure LightSettings where
  color : String
  lightOnDurationMillis : Int
  lightOffDurationMillis : Int

/-- Marshal of the wire `color` struct (fields `red`, `green`, `blue`,
`alpha`, none of them omitempty). -/
def colorJson (c : color) : Json :=
  Json.obj [("red", Json.num c.red), ("green", Json.num c.green),
    ("blue", Json.num c.blue), ("alpha", Json.num c.alpha)]

/-- Embedding of `LightSettings.MarshalJSON`: parse the color string through
`newColor` (propagating its error or panic), then emit the three wire fields;
the millisecond durations are converted through `durationToString`. -/
def LightSettings.marshal (l : LightSettings) : GoRes Json := do
  let clr ← newColor l.color
  pure (Json.obj [("color", colorJson clr),
    ("light_on_duration", Json.str (durationToString (l.lightOnDurationMillis * 1000000))),
    ("light_off_duration", Json.str (durationToString (l.lightOffDurationMillis * 1000000)))])

/-- Decode of the wire `color` struct into the float channels. -/
def goDecColor (kvs : List (String × Json)) (k : String) : GoRes (Option color) :=
  match lookupJ kvs k with
  | none => .ok none
  | some .null => .ok none
  | some (.obj kvs2) => do
    let red ← goDecNum kvs2 "red"
    let green ← goDecNum kvs2 "green"
    let blue ← goDecNum kvs2 "blue"
    let alpha ← goDecNum kvs2 "alpha"
    pure (some { red := red, green := green, blue := blue, alpha := alpha })
  | some _ => .err ("cannot unmarshal into color field " ++ k)

/-- Embedding of `LightSettings.UnmarshalJSON`. A wire object without a
`color` member leaves the decoded pointer nil and the subsequent
`tmp.Color.toString()` dereference panics. -/
def lightSettingsUnmarshal (j : Json) : GoRes LightSettings :=
  match j with
  | .obj kvs => do
    let clrOpt ← goDecColor kvs "color"
    let onStr ← goDecStr kvs "light_on_duration"
    let offStr ← goDecStr kvs "light_off_duration"
    let onDur ← stringToDuration onStr
    let offDur ← stringToDuration offStr
    match clrOpt with
    | none => GoRes.panics
    | some c =>
      pure { color := c.toString, lightOnDurationMillis := onDur.tdiv 1000000,
             lightOffDurationMillis := offDur.tdiv 1000000 }
  | _ => .err "cannot unmarshal into LightSettings"

/-! ## Android notification and config

The enum fields (`AndroidNotificationPriority`, visibility, proxy) are small
integers with 0 the reserved unknown value; the wire token tables below are
the source's literal maps. `EventTimestamp` (wire key `event_time`) is left
out of the embedding: no claim concerns it, its value interacts with no other
field, and its RFC3339 formatting would drag in calendar arithmetic. -/

structure AndroidNotification where
  title : String
  body : String
  icon : String
  color : String
  sound : String
  tag : String
  clickAction : String
  bodyLocKey : String
  bodyLocArgs : List String
  titleLocKey : String
  titleLocArgs : List String
  channelID : String
  ticker : String
  sticky : Bool
  localOnly : Bool
  priority : Int
  defaultSound : Bool
  defaultVibrateTimings : Bool
  defaultLightSettings : Bool
  vibrateTimingMillis : List Int
  visibility : Int
  notificationCount : Option Int
  lightSettings : Option LightSettings
  imageURL : String
  proxy : Int

/-- Wire token of a priority value (1..5); Go's map lookup yields `""` for
any other value. -/
def priorityToString (p : Int) : String :=
  if p = 1 then "PRIORITY_MIN"
  else if p = 2 then "PRIORITY_LOW"
  else if p = 3 then "PRIORITY_DEFAULT"
  else if p = 4 then "PRIORITY_HIGH"
  else if p = 5 then "PRIORITY_MAX"
  else ""

def priorityFromString (s : String) : Option Int :=
  if s = "PRIORITY_MIN" then some 1
  else if s = "PRIORITY_LOW" then some 2
  else if s = "PRIORITY_DEFAULT" then some 3
  else if s = "PRIORITY_HIGH" then some 4
  else if s = "PRIORITY_MAX" then some 5
  else none

def visibilityToString (v : Int) : String :=
  if v = 1 then "PRIVATE"
  else if v = 2 then "PUBLIC"
  else if v = 3 then "SECRET"
  else ""

def visibilityFromString (s : String) : Option Int :=
  if s = "PRIVATE" then some 1
  else if s = "PUBLIC" then some 2
  else if s = "SECRET" then some 3
  else none

def proxyToString (p : Int) : String :=
  if p = 1 then "ALLOW"
  else if p = 2 then "DENY"
  else if p = 3 then "IF_PRIORITY_LOWERED"
  else ""

def proxyFromString (s : String) : Option Int :=
  if s = "ALLOW" then some 1
  else if s = "DENY" then some 2
  else if s = "IF_PRIORITY_LOWERED" then some 3
  else none

/-- Embedding of `AndroidNotification.MarshalJSON` (wrapper fields first,
then the embedded tagged fields in declaration order). -/
def AndroidNotification.marshal (a : AndroidNotification) : GoRes Json := do
  let priorityStr := if a.priority = 0 then "" else priorityToString a.priority
  let visibilityStr := if a.visibility = 0 then "" else visibilityToString a.visibility
  let proxyStr := if a.proxy = 0 then "" else proxyToString a.proxy
  let vibTimings := a.vibrateTimingMillis.map (fun t => durationToString (t * 1000000))
  let lightJson ←
    match a.lightSettings with
    | none => pure (none : Option Json)
    | some l => do
      let lj ← LightSettings.marshal l
      pure (some lj)
  pure (Json.obj (
    jStrOpt "notification_priority" priorityStr
    ++ jStrOpt "visibility" visibilityStr
    ++ jStrOpt "proxy" proxyStr
    ++ (if vibTimings.isEmpty then [] else [("vibrate_timings", Json.arr (vibTimings.map Json.str))])
    ++ jStrOpt "title" a.title ++ jStrOpt "body" a.body ++ jStrOpt "icon" a.icon
    ++ jStrOpt "color" a.color ++ jStrOpt "sound" a.sound ++ jStrOpt "tag" a.tag
    ++ jStrOpt "click_action" a.clickAction ++ jStrOpt "body_loc_key" a.bodyLocKey
    ++ jStrArrOpt "body_loc_args" a.bodyLocArgs ++ jStrOpt "title_loc_key" a.titleLocKey
    ++ jStrArrOpt "title_loc_args" a.titleLocArgs ++ jStrOpt "channel_id" a.channelID
    ++ jStrOpt "ticker" a.ticker ++ jTrueOpt "sticky" a.sticky
    ++ jTrueOpt "local_only" a.localOnly ++ jTrueOpt "default_sound" a.defaultSound
    ++ jTrueOpt "default_vibrate_timings" a.defaultVibrateTimings
    ++ jTrueOpt "default_light_settings" a.defaultLightSettings
    ++ (match a.notificationCount with
        | some k => [("notification_count", Json.num k)]
        | none => [])
    ++ (match lightJson with
        | some lj => [("light_settings", lj)]
        | none => [])
    ++ jStrOpt "image" a.imageURL))

/-- Embedding of `AndroidNotification.UnmarshalJSON`: decode the tagged
fields, then turn the enum token strings into their values (unknown tokens
are errors), then parse every vibrate timing through `stringToDuration`. -/
def decodeAndroidNotification (j : Json) : GoRes AndroidNotification :=
  match j with
  | .obj kvs => do
    let priorityStr ← goDecStr kvs "notification_priority"
    let visibilityStr ← goDecStr kvs "visibility"
    let proxyStr ← goDecStr kvs "proxy"
    let vibStrs ← goDecStrList kvs "vibrate_timings"
    let title ← goDecStr kvs "title"
    let body ← goDecStr kvs "body"
    let icon ← goDecStr kvs "icon"
    let colorStr ← goDecStr kvs "color"
    let sound ← goDecStr kvs "sound"
    let tag ← goDecStr kvs "tag"
    let clickAction ← goDecStr kvs "click_action"
    let bodyLocKey ← goDecStr kvs "body_loc_key"
    let bodyLocArgs ← goDecStrList kvs "body_loc_args"
    let titleLocKey ← goDecStr kvs "title_loc_key"
    let titleLocArgs ← goDecStrList kvs "title_loc_args"
    let channelID ← goDecStr kvs "channel_id"
    let ticker ← goDecStr kvs "ticker"
    let sticky ← goDecBool kvs "sticky"
    let localOnly ← goDecBool kvs "local_only"
    let defaultSound ← goDecBool kvs "default_sound"
    let defaultVibrateTimings ← goDecBool kvs "default_vibrate_timings"
    let defaultLightSettings ← goDecBool kvs "default_light_settings"
    let notificationCount ← goDecOptInt kvs "notification_count"
    let lightSettings ← goDecOpt kvs "light_settings" lightSettingsUnmarshal
    let imageURL ← goDecStr kvs "image"
    let priority ←
      if priorityStr = "" then pure 0
      else
        match priorityFromString priorityStr with
        | some p => pure p
        | none => GoRes.err ("unknown priority value: " ++ goQuote priorityStr)
    let visibility ←
      if visibilityStr = "" then pure 0
      else
        match visibilityFromString visibilityStr with
        | some v => pure v
        | none => GoRes.err ("unknown visibility value: " ++ goQuote visibilityStr)
    let proxy ←
      if proxyStr = "" then pure 0
      else
        match proxyFromString proxyStr with
        | some p => pure p
        | none => GoRes.err ("unknown proxy value: " ++ goQuote proxyStr)
    let vibrateTimingMillis ← vibStrs.mapM (fun s => do
      let d ← stringToDuration s
      pure (d.tdiv 1000000))
    pure
      { title := title, body := body, icon := icon, color := colorStr,
        sound := sound, tag := tag, clickAction := clickAction,
        bodyLocKey := bodyLocKey, bodyLocArgs := bodyLocArgs,
        titleLocKey := titleLocKey, titleLocArgs := titleLocArgs,
        channelID := channelID, ticker := ticker, sticky := sticky,
        localOnly := localOnly, priority := priority,
        defaultSound := defaultSound, defaultVibrateTimings := defaultVibrateTimings,
        defaultLightSettings := defaultLightSettings,
        vibrateTimingMillis := vibrateTimingMillis, visibility := visibility,
        notificationCount := notificationCount, lightSettings := lightSettings,
        imageURL := imageURL, proxy := proxy }
  | _ => .err "cannot unmarshal into AndroidNotification"

structure AndroidFCMOptions where
  analyticsLabel : String

structure AndroidConfig where
  collapseKey : String
  priority : String
  ttl : Option Int
  restrictedPackageName : String
  data : List (String × String)
  notification : Option AndroidNotification
  fcmOptions : Option AndroidFCMOptions
  directBootOK : Bool

/-- Embedding of `AndroidConfig.MarshalJSON`: the TTL duration is rendered
through `durationToString` when present (key omitted when the rendered string
is empty, i.e. exactly when `TTL` is nil). -/
def AndroidConfig.marshal (c : AndroidConfig) : GoRes Json := do
  let ttlStr :=
    match c.ttl with
    | some t => durationToString t
    | none => ""
  let notifJson ←
    match c.notification with
    | none => pure (none : Option Json)
    | some n => do
      let nj ← AndroidNotification.marshal n
      pure (some nj)
  pure (Json.obj (jStrOpt "ttl" ttlStr
    ++ jStrOpt "collapse_key" c.collapseKey
    ++ jStrOpt "priority" c.priority
    ++ jStrOpt "restricted_package_name" c.restrictedPackageName
    ++ (if c.data.isEmpty then [] else [("data", jStrMap c.data)])
    ++ (match notifJson with
        | some nj => [("notification", nj)]
        | none => [])
    ++ (match c.fcmOptions with
        | some o => [("fcm_options", Json.obj (jStrOpt "analytics_label" o.analyticsLabel))]
        | none => [])
    ++ jTrueOpt "direct_boot_ok" c.directBootOK))

def decodeAndroidFCMOptions (j : Json) : GoRes AndroidFCMOptions :=
  match j with
  | .obj kvs => do
    let analyticsLabel ← goDecStr kvs "analytics_label"
    pure { analyticsLabel := analyticsLabel }
  | _ => .err "cannot unmarshal into AndroidFCMOptions"

/-- Embedding of `AndroidConfig.UnmarshalJSON`: decode the tagged fields,
then parse a non-empty TTL string through `stringToDuration`. -/
def decodeAndroidConfig (j : Json) : GoRes AndroidConfig :=
  match j with
  | .obj kvs => do
    let ttlStr ← goDecStr kvs "ttl"
    let collapseKey ← goDecStr kvs "collapse_key"
    let priority ← goDecStr kvs "priority"
    let restrictedPackageName ← goDecStr kvs "restricted_package_name"
    let data ← goDecStrMap kvs "data"
    let notification ← goDecOpt kvs "notification" decodeAndroidNotification
    let fcmOptions ← goDecOpt kvs "fcm_options" decodeAndroidFCMOptions
    let directBootOK ← goDecBool kvs "direct_boot_ok"
    let ttl ←
      if ttlStr = "" then pure (none : Option Int)
      else do
        let d ← stringToDuration ttlStr
        pure (some d)
    pure
      { collapseKey := collapseKey, priority := priority, ttl := ttl,
        restrictedPackageName := restrictedPackageName, data := data,
        notification := notification, fcmOptions := fcmOptions,
        directBootOK := directBootOK }
  | _ => .err "cannot unmarshal into AndroidConfig"

/-! ## Web-push notification: the extensible record (source:
`WebpushNotification`, its `standardFields`, marshal and unmarshal) -/

structure WebpushNotificationAction where
  action : String
  title : String
  icon : String

/-- A `[]*WebpushNotificationAction` element: `none` is a nil pointer,
marshaled as JSON `null`. -/
def webpushActionJson : Option WebpushNotificationAction → Json
  | none => Json.null
  | some a =>
    Json.obj (jStrOpt "action" a.action ++ jStrOpt "title" a.title ++
      jStrOpt "icon" a.icon)

structure WebpushNotification where
  actions : List (Option WebpushNotificationAction)
  title : String
  body : String
  icon : String
  badge : String
  direction : String
  data : Option Json
  image : String
  language : String
  renotify : Bool
  requireInteraction : Bool
  silent : Bool
  tag : String
  timestampMillis : Option Int
  vibrate : List Int
  customData : Option (List (String × Json))

/-- Embedding of `WebpushNotification.standardFields`: one binding per
non-empty / non-default standard field, in the source's insertion order.
Note that which keys appear DEPENDS ON THE VALUE: an empty string or false
flag contributes no binding. -/
def WebpushNotification.standardFields (n : WebpushNotification) :
    List (String × Json) :=
  (if n.actions.isEmpty then []
   else [("actions", Json.arr (n.actions.map webpushActionJson))])
  ++ jStrOpt "title" n.title ++ jStrOpt "body" n.body ++ jStrOpt "icon" n.icon
  ++ jStrOpt "badge" n.badge ++ jStrOpt "dir" n.direction
  ++ jStrOpt "image" n.image ++ jStrOpt "lang" n.language
  ++ jTrueOpt "renotify" n.renotify
  ++ jTrueOpt "requireInteraction" n.requireInteraction
  ++ jTrueOpt "silent" n.silent ++ jStrOpt "tag" n.tag
  ++ (match n.data with
      | some v => [("data", v)]
      | none => [])
  ++ (match n.timestampMillis with
      | some t => [("timestamp", Json.num t)]
      | none => [])
  ++ (if n.vibrate.isEmpty then []
      else [("vibrate", Json.arr (n.vibrate.map (fun i => Json.num i)))])

/-- The wire names of the web-push notification's standard fields — the
fixed "standard-field set" of the struct's JSON tags. -/
def webpushStandardKeyNames : List String :=
  ["actions", "title", "body", "icon", "badge", "dir", "image", "lang",
   "renotify", "requireInteraction", "silent", "tag", "data", "timestamp",
   "vibrate"]

/-- Embedding of `WebpushNotification.MarshalJSON`: standard fields overlaid
with the custom bag, flat in one object. -/
def WebpushNotification.marshal (n : WebpushNotification) : Json :=
  mergeCustom n.standardFields n.customData

def decodeWebpushAction (j : Json) : GoRes (Option WebpushNotificationAction) :=
  match j with
  | .null => .ok none
  | .obj kvs => do
    let action ← goDecStr kvs "action"
    let title ← goDecStr kvs "title"
    let icon ← goDecStr kvs "icon"
    pure (some { action := action, title := title, icon := icon })
  | _ => .err "cannot unmarshal into WebpushNotificationAction"

def decodeWebpushActions (kvs : List (String × Json)) :
    GoRes (List (Option WebpushNotificationAction)) :=
  match lookupJ kvs "actions" with
  | none => .ok []
  | some .null => .ok []
  | some (.arr xs) => xs.mapM decodeWebpushAction
  | some _ => .err "cannot unmarshal into actions field"

/-- The `data` field has type `any`: it takes the raw JSON value; `null` and
absence both leave nil. -/
def goDecAnyData (kvs : List (String × Json)) : Option Json :=
  match lookupJ kvs "data" with
  | none => none
  | some .null => none
  | some v => some v

/-- The final step of `WebpushNotification.UnmarshalJSON`: from the whole
wire object delete every key of `n.standardFields()` — the map computed from
the DECODED value — and keep the remainder (if any) as the custom bag. -/
def webpushAttachCustom (kvs : List (String × Json)) (n : WebpushNotification) :
    WebpushNotification :=
  { n with customData := customBag kvs (n.standardFields.map Prod.fst) }

/-- Embedding of `WebpushNotification.UnmarshalJSON`. -/
def decodeWebpushNotification (j : Json) : GoRes WebpushNotification :=
  match j with
  | .obj kvs => do
    let actions ← decodeWebpushActions kvs
    let title ← goDecStr kvs "title"
    let body ← goDecStr kvs "body"
    let icon ← goDecStr kvs "icon"
    let badge ← goDecStr kvs "badge"
    let direction ← goDecStr kvs "dir"
    let image ← goDecStr kvs "image"
    let language ← goDecStr kvs "lang"
    let renotify ← goDecBool kvs "renotify"
    let requireInteraction ← goDecBool kvs "requireInteraction"
    let silent ← goDecBool kvs "silent"
    let tag ← goDecStr kvs "tag"
    let timestampMillis ← goDecOptInt kvs "timestamp"
    let vibrate ← goDecIntList kvs "vibrate"
    pure (webpushAttachCustom kvs
      { actions := actions, title := title, body := body, icon := icon,
        badge := badge, direction := direction, data := goDecAnyData kvs,
        image := image, language := language, renotify := renotify,
        requireInteraction := requireInteraction, silent := silent,
        tag := tag, timestampMillis := timestampMillis, vibrate := vibrate,
        customData := none })
  | _ => .err "cannot unmarshal into WebpushNotification"

structure WebpushFCMOptions where
  link : String

structure WebpushConfig where
  headers : List (String × String)
  data : List (String × String)
  notification : Option WebpushNotification
  fcmOptions : Option WebpushFCMOptions

def WebpushConfig.marshal (c : WebpushConfig) : Json :=
  Json.obj ((if c.headers.isEmpty then [] else [("headers", jStrMap c.headers)])
    ++ (if c.data.isEmpty then [] else [("data", jStrMap c.data)])
    ++ (match c.notification with
        | some n => [("notification", n.marshal)]
        | none => [])
    ++ (match c.fcmOptions with
        | some o => [("fcm_options", Json.obj (jStrOpt "link" o.link))]
        | none => []))

def decodeWebpushFCMOptions (j : Json) : GoRes WebpushFCMOptions :=
  match j with
  | .obj kvs => do
    let link ← goDecStr kvs "link"
    pure { link := link }
  | _ => .err "cannot unmarshal into WebpushFCMOptions"

def decodeWebpushConfig (j : Json) : GoRes WebpushConfig :=
  match j with
  | .obj kvs => do
    let headers ← goDecStrMap kvs "headers"
    let data ← goDecStrMap kvs "data"
    let notification ← goDecOpt kvs "notification" decodeWebpushNotification
    let fcmOptions ← goDecOpt kvs "fcm_options" decodeWebpushFCMOptions
    pure
      { headers := headers, data := data, notification := notification,
        fcmOptions := fcmOptions }
  | _ => .err "cannot unmarshal into WebpushConfig"

/-! ## APNs: alert, critical sound, aps dictionary, payload, config -/

structure ApsAlert where
  title : String
  subTitle : String
  body : String
  locKey : String
  locArgs : List String
  titleLocKey : String
  titleLocArgs : List String
  subTitleLocKey : String
  subTitleLocArgs : List String
  actionLocKey : String
  launchImage : String

def ApsAlert.marshal (al : ApsAlert) : Json :=
  Json.obj (jStrOpt "title" al.title ++ jStrOpt "subtitle" al.subTitle
    ++ jStrOpt "body" al.body ++ jStrOpt "loc-key" al.locKey
    ++ jStrArrOpt "loc-args" al.locArgs
    ++ jStrOpt "title-loc-key" al.titleLocKey
    ++ jStrArrOpt "title-loc-args" al.titleLocArgs
    ++ jStrOpt "subtitle-loc-key" al.subTitleLocKey
    ++ jStrArrOpt "subtitle-loc-args" al.subTitleLocArgs
    ++ jStrOpt "action-loc-key" al.actionLocKey
    ++ jStrOpt "launch-image" al.launchImage)

structure CriticalSound where
  critical : Bool
  name : String
  volume : ℚ

/-- Embedding of `CriticalSound.MarshalJSON`: the critical flag becomes the
optional integer 1 (omitted when false), volume is omitted when zero. -/
def CriticalSound.marshal (cs : CriticalSound) : Json :=
  Json.obj ((if cs.critical then [("critical", Json.num 1)] else [])
    ++ jStrOpt "name" cs.name
    ++ (if cs.volume = 0 then [] else [("volume", Json.num cs.volume)]))

structure Aps where
  alertString : String
  alert : Option ApsAlert
  badge : Option Int
  sound : String
  criticalSound : Option CriticalSound
  contentAvailable : Bool
  mutableContent : Bool
  category : String
  threadID : String
  customData : Option (List (String × Json))

/-- Embedding of `Aps.standardFields`: the alert union emits the structured
alert when present, else the alert string when non-empty; the two boolean
flags are carried as the integer 1 and only when true; the sound union
mirrors the alert union. -/
def Aps.standardFields (a : Aps) : List (String × Json) :=
  (match a.alert with
   | some al => [("alert", al.marshal)]
   | none => if a.alertString = "" then [] else [("alert", Json.str a.alertString)])
  ++ (if a.contentAvailable then [("content-available", Json.num 1)] else [])
  ++ (if a.mutableContent then [("mutable-content", Json.num 1)] else [])
  ++ (match a.badge with
      | some b => [("badge", Json.num b)]
      | none => [])
  ++ (match a.criticalSound with
      | some cs => [("sound", cs.marshal)]
      | none => if a.sound = "" then [] else [("sound", Json.str a.sound)])
  ++ jStrOpt "category" a.category
  ++ jStrOpt "thread-id" a.threadID

def Aps.marshal (a : Aps) : Json :=
  mergeCustom a.standardFields a.customData

/-- `json.Unmarshal` of an alert value into `*ApsAlert`. -/
def decodeApsAlertStruct (j : Json) : GoRes (Option ApsAlert) :=
  match j with
  | .null => .ok none
  | .obj kvs => do
    let title ← goDecStr kvs "title"
    let subTitle ← goDecStr kvs "subtitle"
    let body ← goDecStr kvs "body"
    let locKey ← goDecStr kvs "loc-key"
    let locArgs ← goDecStrList kvs "loc-args"
    let titleLocKey ← goDecStr kvs "title-loc-key"
    let titleLocArgs ← goDecStrList kvs "title-loc-args"
    let subTitleLocKey ← goDecStr kvs "subtitle-loc-key"
    let subTitleLocArgs ← goDecStrList kvs "subtitle-loc-args"
    let actionLocKey ← goDecStr kvs "action-loc-key"
    let launchImage ← goDecStr kvs "launch-image"
    pure (some
      { title := title, subTitle := subTitle, body := body, locKey := locKey,
        locArgs := locArgs, titleLocKey := titleLocKey,
        titleLocArgs := titleLocArgs, subTitleLocKey := subTitleLocKey,
        subTitleLocArgs := subTitleLocArgs, actionLocKey := actionLocKey,
        launchImage := launchImage })
  | _ => .err "cannot unmarshal into ApsAlert"

/-- `json.Unmarshal` of a sound value into `*CriticalSound` (through
`CriticalSound.UnmarshalJSON`: the wire `critical` integer equal to 1 means
true). -/
def decodeCriticalSoundStruct (j : Json) : GoRes (Option CriticalSound) :=
  match j with
  | .null => .ok none
  | .obj kvs => do
    let criticalInt ← goDecInt kvs "critical"
    let name ← goDecStr kvs "name"
    let volume ← goDecNum kvs "volume"
    pure (some { critical := criticalInt == 1, name := name, volume := volume })
  | _ => .err "cannot unmarshal into CriticalSound"

/-- The alert union decode of `Aps.UnmarshalJSON`: try the structured parse,
fall back to a plain string on ANY failure, and fail hard when both fail. -/
def decodeAlertUnion (kvs : List (String × Json)) :
    GoRes (Option ApsAlert × String) :=
  match lookupJ kvs "alert" with
  | none => .ok (none, "")
  | some .null => .ok (none, "")
  | some v =>
    match decodeApsAlertStruct v with
    | .ok al => .ok (al, "")
    | .panics => .panics
    | .err _ =>
      match v with
      | .str s => .ok (none, s)
      | _ => .err "failed to unmarshal alert as a struct or a string"

/-- The sound union decode of `Aps.UnmarshalJSON`, same shape as the alert
union. -/
def decodeSoundUnion (kvs : List (String × Json)) :
    GoRes (Option CriticalSound × String) :=
  match lookupJ kvs "sound" with
  | none => .ok (none, "")
  | some .null => .ok (none, "")
  | some v =>
    match decodeCriticalSoundStruct v with
    | .ok cs => .ok (cs, "")
    | .panics => .panics
    | .err _ =>
      match v with
      | .str s => .ok (none, s)
      | _ => .err "failed to unmarshal sound as a struct or a string"

/-- The custom-bag step of `Aps.UnmarshalJSON`: delete the keys of
`a.standardFields()` — computed from the decoded value — from the whole wire
object. -/
def apsAttachCustom (kvs : List (String × Json)) (a : Aps) : Aps :=
  { a with customData := customBag kvs (a.standardFields.map Prod.fst) }

/-- Embedding of `Aps.UnmarshalJSON`: decode the wrapper's optional-integer
flags (`content-available`, `mutable-content`, equal-to-1 semantics), the
tagged fields, then the two unions, then subtract the standard keys. -/
def decodeAps (j : Json) : GoRes Aps :=
  match j with
  | .obj kvs => do
    let caInt ← goDecInt kvs "content-available"
    let mcInt ← goDecInt kvs "mutable-content"
    let badge ← goDecOptInt kvs "badge"
    let category ← goDecStr kvs "category"
    let threadID ← goDecStr kvs "thread-id"
    let alertPair ← decodeAlertUnion kvs
    let soundPair ← decodeSoundUnion kvs
    pure (apsAttachCustom kvs
      { alertString := alertPair.2, alert := alertPair.1, badge := badge,
        sound := soundPair.2, criticalSound := soundPair.1,
        contentAvailable := caInt == 1, mutableContent := mcInt == 1,
        category := category, threadID := threadID, customData := none })
  | _ => .err "cannot unmarshal into Aps"

structure APNSPayload where
  aps : Option Aps
  customData : Option (List (String × Json))

/-- Embedding of `APNSPayload.standardFields`: always the single `aps` key,
whatever the (possibly nil) aps value. -/
def APNSPayload.standardFields (p : APNSPayload) : List (String × Json) :=
  [("aps", match p.aps with
           | some a => a.marshal
           | none => Json.null)]

def APNSPayload.marshal (p : APNSPayload) : Json :=
  mergeCustom p.standardFields p.customData

/-- Embedding of `APNSPayload.UnmarshalJSON`: the `aps` key is deleted from
the custom bag unconditionally (it is always in `standardFields`). -/
def decodeAPNSPayload (j : Json) : GoRes APNSPayload :=
  match j with
  | .obj kvs => do
    let aps ← goDecOpt kvs "aps" decodeAps
    let p0 : APNSPayload := { aps := aps, customData := none }
    pure { p0 with customData := customBag kvs (p0.standardFields.map Prod.fst) }
  | _ => .err "cannot unmarshal into APNSPayload"

structure APNSFCMOptions where
  analyticsLabel : String
  imageURL : String

def APNSFCMOptions.marshal (o : APNSFCMOptions) : Json :=
  Json.obj (jStrOpt "analytics_label" o.analyticsLabel ++ jStrOpt "image" o.imageURL)

structure APNSConfig where
  headers : List (String × String)
  payload : Option APNSPayload
  fcmOptions : Option APNSFCMOptions
  liveActivityToken : String

def APNSConfig.marshal (c : APNSConfig) : Json :=
  Json.obj ((if c.headers.isEmpty then [] else [("headers", jStrMap c.headers)])
    ++ (match c.payload with
        | some p => [("payload", p.marshal)]
        | none => [])
    ++ (match c.fcmOptions with
        | some o => [("fcm_options", o.marshal)]
        | none => [])
    ++ jStrOpt "live_activity_token" c.liveActivityToken)

def decodeAPNSFCMOptions (j : Json) : GoRes APNSFCMOptions :=
  match j with
  | .obj kvs => do
    let analyticsLabel ← goDecStr kvs "analytics_label"
    let imageURL ← goDecStr kvs "image"
    pure { analyticsLabel := analyticsLabel, imageURL := imageURL }
  | _ => .err "cannot unmarshal into APNSFCMOptions"

def decodeAPNSConfig (j : Json) : GoRes APNSConfig :=
  match j with
  | .obj kvs => do
    let headers ← goDecStrMap kvs "headers"
    let payload ← goDecOpt kvs "payload" decodeAPNSPayload
    let fcmOptions ← goDecOpt kvs "fcm_options" decodeAPNSFCMOptions
    let liveActivityToken ← goDecStr kvs "live_activity_token"
    pure
      { headers := headers, payload := payload, fcmOptions := fcmOptions,
        liveActivityToken := liveActivityToken }
  | _ => .err "cannot unmarshal into APNSConfig"

/-! ## Notification and Message -/

structure Notification where
  title : String
  body : String
  imageURL : String

def Notification.marshal (n : Notification) : Json :=
  Json.obj (jStrOpt "title" n.title ++ jStrOpt "body" n.body ++
    jStrOpt "image" n.imageURL)

def decodeNotification (j : Json) : GoRes Notification :=
  match j with
  | .obj kvs => do
    let title ← goDecStr kvs "title"
    let body ← goDecStr kvs "body"
    let imageURL ← goDecStr kvs "image"
    pure { title := title, body := body, imageURL := imageURL }
  | _ => .err "cannot unmarshal into Notification"

structure FCMOptions where
  analyticsLabel : String

def decodeFCMOptions (j : Json) : GoRes FCMOptions :=
  match j with
  | .obj kvs => do
    let analyticsLabel ← goDecStr kvs "analytics_label"
    pure { analyticsLabel := analyticsLabel }
  | _ => .err "cannot unmarshal into FCMOptions"

structure Message where
  data : List (String × String)
  notification : Option Notification
  android : Option AndroidConfig
  webpush : Option WebpushConfig
  apns : Option APNSConfig
  fcmOptions : Option FCMOptions
  token : String
  topic : String
  condition : String

/-- `strings.TrimPrefix(topic, "/topics/")`. -/
def stripTopics (t : String) : String :=
  if t.data.take 8 = ['/', 't', 'o', 'p', 'i', 'c', 's', '/'] then
    String.mk (t.data.drop 8)
  else t

/-- The embedded tagged fields of the `Message` wrapper (everything after the
wrapper's `"topic"` binding), in declaration order. -/
def messageRestPairs (m : Message) (androidJson : Option Json) :
    List (String × Json) :=
  (if m.data.isEmpty then [] else [("data", jStrMap m.data)])
  ++ (match m.notification with
      | some n => [("notification", n.marshal)]
      | none => [])
  ++ (match androidJson with
      | some x => [("android", x)]
      | none => [])
  ++ (match m.webpush with
      | some w => [("webpush", w.marshal)]
      | none => [])
  ++ (match m.apns with
      | some a => [("apns", a.marshal)]
      | none => [])
  ++ (match m.fcmOptions with
      | some o => [("fcm_options", Json.obj (jStrOpt "analytics_label" o.analyticsLabel))]
      | none => [])
  ++ jStrOpt "token" m.token ++ jStrOpt "condition" m.condition

/-- Embedding of `Message.MarshalJSON`: the wrapper emits the bare (trimmed)
topic under `"topic"` first, then the embedded tagged fields in declaration
order (the `Topic` field itself carries the `json:"-"` tag). -/
def Message.marshal (m : Message) : GoRes Json := do
  let androidJson ←
    match m.android with
    | none => pure (none : Option Json)
    | some a => do
      let x ← a.marshal
      pure (some x)
  pure (Json.obj (jStrOpt "topic" (stripTopics m.topic)
    ++ messageRestPairs m androidJson))

/-- Embedding of `Message.UnmarshalJSON`: the wrapper reads the wire
`"topic"` value into `BareTopic` and stores it in `Topic` VERBATIM — no
prefix is stripped on this path. -/
def decodeMessage (j : Json) : GoRes Message :=
  match j with
  | .obj kvs => do
    let bareTopicStr ← goDecStr kvs "topic"
    let data ← goDecStrMap kvs "data"
    let notification ← goDecOpt kvs "notification" decodeNotification
    let android ← goDecOpt kvs "android" decodeAndroidConfig
    let webpush ← goDecOpt kvs "webpush" decodeWebpushConfig
    let apns ← goDecOpt kvs "apns" decodeAPNSConfig
    let fcmOptions ← goDecOpt kvs "fcm_options" decodeFCMOptions
    let token ← goDecStr kvs "token"
    let condition ← goDecStr kvs "condition"
    pure
      { data := data, notification := notification, android := android,
        webpush := webpush, apns := apns, fcmOptions := fcmOptions,
        token := token, topic := bareTopicStr, condition := condition }
  | _ => .err "cannot unmarshal into Message"

/-! ## URL parsing (model of `net/url.ParseRequestURI`)

The validators only look at whether the parse errs and at the resulting
scheme, so the model captures exactly net/url's scheme extraction and its
absolute-URI requirement: the empty string is an error, a string with a valid
`scheme:` head parses with that scheme lowercased, a rootless string without
a scheme is an error, and a string starting with `/` parses with an empty
scheme. The remainder (host and path), whose parsing only rejects characters
none of the claims' inputs contain, is modeled as always succeeding. -/

structure GoURL where
  scheme : String

def isSchemeHeadChar (c : Char) : Bool :=
  ('a' ≤ c ∧ c ≤ 'z') ∨ ('A' ≤ c ∧ c ≤ 'Z')

def isSchemeTailChar (c : Char) : Bool :=
  isSchemeHeadChar c ∨ c.isDigit ∨ c = '+' ∨ c = '-' ∨ c = '.'

def asciiLowerChar (c : Char) : Char :=
  if 'A' ≤ c ∧ c ≤ 'Z' then Char.ofNat (c.toNat + 32) else c

def splitSchemeAux (acc : List Char) : List Char → Option (List Char)
  | [] => none
  | c :: rest =>
    if c = ':' then some acc.reverse
    else if isSchemeTailChar c then splitSchemeAux (c :: acc) rest
    else none

/-- The characters before the first `':'` when they form a valid scheme. -/
def splitScheme (cs : List Char) : Option (List Char) :=
  match cs with
  | [] => none
  | c :: rest => if isSchemeHeadChar c then splitSchemeAux [c] rest else none

def parseRequestURI (s : String) : GoRes GoURL :=
  if s = "" then .err "empty url"
  else
    match splitScheme s.data with
    | some sch => .ok { scheme := String.mk (sch.map asciiLowerChar) }
    | none =>
      match s.data with
      | '/' :: _ => .ok { scheme := "" }
      | _ => .err "invalid URI for request"

/-- Embedding of `isValidURL`: whether `url.ParseRequestURI` succeeds. -/
def isValidURL (link : String) : Bool :=
  match parseRequestURI link with
  | .ok _ => true
  | _ => false

/-! ## The validation engine (source: `validateMessage` and helpers).

The embedding takes the message by value; the source's initial nil-pointer
check (`message == nil`) has no counterpart on values and every claim
quantifies over messages, not over nil. Where Go iterates a `CustomData` map
to look for a key collision, the embedding takes the first colliding binding
in list order; which key an error names is the only thing Go leaves to map
order, not whether validation fails. -/

def countNonEmpty (ss : List String) : Nat :=
  (ss.filter (fun s => s ≠ "")).length

def topicCharOK (c : Char) : Bool :=
  ('a' ≤ c ∧ c ≤ 'z') ∨ ('A' ≤ c ∧ c ≤ 'Z') ∨ c.isDigit ∨
    c = '-' ∨ c = '_' ∨ c = '.' ∨ c = '~' ∨ c = '%'

/-- The `bareTopicNamePattern` regular expression
`^[a-zA-Z0-9-_.~%]+$` as a predicate. -/
def bareTopicNameOK (s : String) : Bool :=
  !s.data.isEmpty && s.data.all topicCharOK

/-- The `colorPattern` regular expression `^#[0-9a-fA-F]{6}$`. -/
def colorPatternOK (s : String) : Bool :=
  match s.data with
  | '#' :: rest => rest.length == 6 && rest.all isHexDigit
  | _ => false

/-- The `colorWithAlphaPattern` regular expression
`^#[0-9a-fA-F]{6}([0-9a-fA-F]{2})?$`. -/
def colorWithAlphaPatternOK (s : String) : Bool :=
  match s.data with
  | '#' :: rest => (rest.length == 6 || rest.length == 8) && rest.all isHexDigit
  | _ => false

def validateNotification : Option Notification → GoRes Unit
  | none => .ok ()
  | some n =>
    if n.imageURL ≠ "" ∧ ¬ isValidURL n.imageURL then
      .err ("invalid image URL: " ++ goQuote n.imageURL)
    else .ok ()

def validateLightSettings : Option LightSettings → GoRes Unit
  | none => .ok ()
  | some l =>
    if ¬ colorWithAlphaPatternOK l.color then
      .err "color must be in #RRGGBB or #RRGGBBAA form"
    else if l.lightOnDurationMillis < 0 then
      .err "lightOnDuration must not be negative"
    else if l.lightOffDurationMillis < 0 then
      .err "lightOffDuration must not be negative"
    else .ok ()

def validateAndroidNotification : Option AndroidNotification → GoRes Unit
  | none => .ok ()
  | some n =>
    if n.color ≠ "" ∧ ¬ colorPatternOK n.color then
      .err "color must be in the #RRGGBB form"
    else if ¬ n.titleLocArgs.isEmpty ∧ n.titleLocKey = "" then
      .err "titleLocKey is required when specifying titleLocArgs"
    else if ¬ n.bodyLocArgs.isEmpty ∧ n.bodyLocKey = "" then
      .err "bodyLocKey is required when specifying bodyLocArgs"
    else if n.imageURL ≠ "" ∧ ¬ isValidURL n.imageURL then
      .err ("invalid image URL: " ++ goQuote n.imageURL)
    else if n.vibrateTimingMillis.any (fun t => decide (t < 0)) then
      .err "vibrateTimingMillis must not be negative"
    else validateLightSettings n.lightSettings

/-- Whether a present TTL is negative (`config.TTL != nil &&
config.TTL.Seconds() < 0`). -/
def ttlNegative : Option Int → Bool
  | some t => decide (t < 0)
  | none => false

def validateAndroidConfig : Option AndroidConfig → GoRes Unit
  | none => .ok ()
  | some c =>
    if ttlNegative c.ttl then .err "ttl duration must not be negative"
    else if c.priority ≠ "" ∧ c.priority ≠ "normal" ∧ c.priority ≠ "high" then
      .err "priority must be 'normal' or 'high'"
    else validateAndroidNotification c.notification

def validateApsAlert : Option ApsAlert → GoRes Unit
  | none => .ok ()
  | some alert =>
    if ¬ alert.titleLocArgs.isEmpty ∧ alert.titleLocKey = "" then
      .err "titleLocKey is required when specifying titleLocArgs"
    else if ¬ alert.subTitleLocArgs.isEmpty ∧ alert.subTitleLocKey = "" then
      .err "subtitleLocKey is required when specifying subtitleLocArgs"
    else if ¬ alert.locArgs.isEmpty ∧ alert.locKey = "" then
      .err "locKey is required when specifying locArgs"
    else .ok ()

/-- The key-collision and alert checks at the tail of `validateAps`. -/
def validateApsTail (a : Aps) : GoRes Unit :=
  match (a.customData.getD []).find?
      (fun kv => (a.standardFields.map Prod.fst).contains kv.1) with
  | some kv => .err ("multiple specifications for the key: " ++ goQuote kv.1)
  | none => validateApsAlert a.alert

def validateAps : Option Aps → GoRes Unit
  | none => .ok ()
  | some a =>
    if a.alert.isSome ∧ a.alertString ≠ "" then
      .err "multiple alert specifications"
    else
      match a.criticalSound with
      | some cs =>
        if a.sound ≠ "" then .err "multiple sound specifications"
        else if cs.volume < 0 ∨ cs.volume > 1 then
          .err "critical sound volume must be in the interval [0, 1]"
        else validateApsTail a
      | none => validateApsTail a

def validateAPNSPayload : Option APNSPayload → GoRes Unit
  | none => .ok ()
  | some p =>
    match (p.customData.getD []).find?
        (fun kv => (p.standardFields.map Prod.fst).contains kv.1) with
    | some kv => .err ("multiple specifications for the key " ++ goQuote kv.1)
    | none => validateAps p.aps

def validateAPNSConfig : Option APNSConfig → GoRes Unit
  | none => .ok ()
  | some c =>
    match c.fcmOptions with
    | some o =>
      if o.imageURL ≠ "" ∧ ¬ isValidURL o.imageURL then
        .err ("invalid image URL: " ++ goQuote o.imageURL)
      else validateAPNSPayload c.payload
    | none => validateAPNSPayload c.payload

/-- Embedding of `validateWebpushConfig`. Everything — the link check
included — is skipped when the web-push block OR its notification is nil;
when an options block is present its link goes through `ParseRequestURI`
UNCONDITIONALLY, with no emptiness test first. -/
def validateWebpushConfig : Option WebpushConfig → GoRes Unit
  | none => .ok ()
  | some w =>
    match w.notification with
    | none => .ok ()
    | some n =>
      if n.direction ≠ "" ∧ n.direction ≠ "ltr" ∧ n.direction ≠ "rtl" ∧
          n.direction ≠ "auto" then
        .err "direction must be 'ltr', 'rtl' or 'auto'"
      else
        match (n.customData.getD []).find?
            (fun kv => (n.standardFields.map Prod.fst).contains kv.1) with
        | some kv => .err ("multiple specifications for the key " ++ goQuote kv.1)
        | none =>
          match w.fcmOptions with
          | none => .ok ()
          | some o =>
            match parseRequestURI o.link with
            | .err _ => .err ("invalid link URL: " ++ goQuote o.link)
            | .panics => .panics
            | .ok p =>
              if p.scheme ≠ "https" then
                .err ("invalid link URL: " ++ goQuote o.link ++
                  "; want scheme: " ++ goQuote "https")
              else .ok ()

/-- The rules of `validateMessage` after the targeting-exclusivity check:
topic well-formedness, then the per-platform validators in order. -/
def validateMessageRest (m : Message) : GoRes Unit :=
  if m.topic ≠ "" ∧ ¬ bareTopicNameOK (stripTopics m.topic) then
    .err "malformed topic name"
  else do
    validateNotification m.notification
    validateAndroidConfig m.android
    validateWebpushConfig m.webpush
    validateAPNSConfig m.apns

/-- Embedding of `validateMessage`: first the count of non-empty targeting
fields (in the source's argument order token, condition, topic) must be
exactly one, then the remaining rules run. -/
def validateMessage (m : Message) : GoRes Unit :=
  if countNonEmpty [m.token, m.condition, m.topic] ≠ 1 then
    .err "exactly one of token, topic or condition must be specified"
  else validateMessageRest m

/-! ## Decimal printing and parsing lemmas -/

theorem digitVal_digitChar : ∀ n, n < 10 → digitVal (digitChar n) = n := by decide

theorem isDigit_digitChar : ∀ n, n < 10 → (digitChar n).isDigit = true := by decide

theorem digitChar_ne_zero : ∀ n, 1 ≤ n → n < 10 → digitChar n ≠ '0' := by decide

theorem digitsVal_from (cs : List Char) (acc : Nat) :
    cs.foldl (fun a c => a * 10 + digitVal c) acc =
      acc * 10 ^ cs.length + digitsVal cs := by
  induction cs generalizing acc with
  | nil => simp [digitsVal]
  | cons c cs ih =>
    have hv : digitsVal (c :: cs) = digitVal c * 10 ^ cs.length + digitsVal cs := by
      simpa [digitsVal] using ih (digitVal c)
    simp only [List.foldl_cons, ih (acc * 10 + digitVal c), hv, List.length_cons]
    ring

theorem digitsVal_append (a b : List Char) :
    digitsVal (a ++ b) = digitsVal a * 10 ^ b.length + digitsVal b := by
  have := digitsVal_from b (digitsVal a)
  simpa [digitsVal, List.foldl_append] using this

theorem digitsVal_singleton (c : Char) : digitsVal [c] = digitVal c := by
  simp [digitsVal]

theorem natDigitsAux_spec :
    ∀ fuel n, n < fuel →
      natDigitsAux fuel n ≠ [] ∧ (natDigitsAux fuel n).all Char.isDigit = true ∧
        digitsVal (natDigitsAux fuel n) = n := by
  intro fuel
  induction fuel with
  | zero => intro n h; omega
  | succ fuel ih =>
    intro n h
    by_cases h10 : n < 10
    · refine ⟨by simp [natDigitsAux, h10], ?_, ?_⟩
      · simp [natDigitsAux, h10, isDigit_digitChar n h10]
      · simp [natDigitsAux, h10, digitsVal_singleton, digitVal_digitChar n h10]
    · have hdivlt : n / 10 < n := Nat.div_lt_self (by omega) (by omega)
      have hdiv : n / 10 < fuel := by omega
      obtain ⟨hne, hall, hval⟩ := ih (n / 10) hdiv
      have hmod : n % 10 < 10 := Nat.mod_lt _ (by omega)
      refine ⟨by simp [natDigitsAux, h10], ?_, ?_⟩
      · simp [natDigitsAux, h10, List.all_append, hall, isDigit_digitChar _ hmod]
      · simp only [natDigitsAux, h10, if_false, digitsVal_append, hval,
          List.length_singleton, pow_one, digitsVal_singleton,
          digitVal_digitChar _ hmod]
        omega

theorem natDigits_ne_nil (n : Nat) : natDigits n ≠ [] :=
  (natDigitsAux_spec (n + 1) n (by omega)).1

theorem natDigits_all_digits (n : Nat) : (natDigits n).all Char.isDigit = true :=
  (natDigitsAux_spec (n + 1) n (by omega)).2.1

theorem digitsVal_natDigits (n : Nat) : digitsVal (natDigits n) = n :=
  (natDigitsAux_spec (n + 1) n (by omega)).2.2

theorem natDigitsAux_head_ne_zero :
    ∀ fuel n, n < fuel → 1 ≤ n →
      ∃ c cs, natDigitsAux fuel n = c :: cs ∧ c ≠ '0' := by
  intro fuel
  induction fuel with
  | zero => intro n h; omega
  | succ fuel ih =>
    intro n h h1
    by_cases h10 : n < 10
    · exact ⟨digitChar n, [], by simp [natDigitsAux, h10],
        digitChar_ne_zero n h1 h10⟩
    · have hdivlt : n / 10 < n := Nat.div_lt_self (by omega) (by omega)
      have h1' : 1 ≤ n / 10 := by omega
      obtain ⟨c, cs, heq, hc⟩ := ih (n / 10) (by omega) h1'
      exact ⟨c, cs ++ [digitChar (n % 10)], by simp [natDigitsAux, h10, heq], hc⟩

theorem natDigits_head_ne_zero (n : Nat) (h : 1 ≤ n) :
    ∃ c cs, natDigits n = c :: cs ∧ c ≠ '0' :=
  natDigitsAux_head_ne_zero (n + 1) n (by omega) h

theorem mem_digits_isDigit {cs : List Char} {c : Char}
    (hall : cs.all Char.isDigit = true) (hm : c ∈ cs) : c.isDigit = true := by
  rw [List.all_eq_true] at hall
  exact hall c hm

theorem dot_not_mem_of_digits {cs : List Char}
    (hall : cs.all Char.isDigit = true) : '.' ∉ cs := by
  intro hm
  exact absurd (mem_digits_isDigit hall hm) (by decide)

theorem parsePosDigits_of_digits (ds : List Char) (h1 : ds ≠ [])
    (h2 : ds.all Char.isDigit = true) (h3 : digitsVal ds ≤ 2 ^ 63 - 1) :
    parsePosDigits ds false = .ok (digitsVal ds) := by
  simp [parsePosDigits, h1, h2]
  omega

theorem parseIntList_of_digits (cs : List Char) (h1 : cs ≠ [])
    (h2 : cs.all Char.isDigit = true) (h3 : digitsVal cs ≤ 2 ^ 63 - 1) :
    parseIntList cs = .ok (digitsVal cs) := by
  match cs with
  | [] => exact absurd rfl h1
  | c :: rest =>
    have hc : c.isDigit = true := mem_digits_isDigit h2 (by simp)
    have hminus : ¬ c = '-' := by intro e; subst e; exact absurd hc (by decide)
    have hplus : ¬ c = '+' := by intro e; subst e; exact absurd hc (by decide)
    simp only [parseIntList, if_neg hminus, if_neg hplus]
    exact parsePosDigits_of_digits _ h1 h2 h3

theorem parseIntList_natDigits (n : Nat) (h : n ≤ 2 ^ 63 - 1) :
    parseIntList (natDigits n) = .ok n := by
  have := parseIntList_of_digits (natDigits n) (natDigits_ne_nil n)
    (natDigits_all_digits n) (by rw [digitsVal_natDigits]; exact h)
  rwa [digitsVal_natDigits] at this

/-! ## Splitting and trimming lemmas -/

theorem splitCh_no_sep (sep : Char) (cs : List Char) (h : sep ∉ cs) :
    splitCh sep cs = [cs] := by
  induction cs with
  | nil => rfl
  | cons c cs ih =>
    have hcsep : ¬ c = sep := fun e => h (e ▸ List.mem_cons_self c cs)
    have hrest : sep ∉ cs := fun hm => h (List.mem_cons_of_mem c hm)
    simp [splitCh, hcsep, ih hrest]

theorem splitCh_two (sep : Char) (a b : List Char) (ha : sep ∉ a) (hb : sep ∉ b) :
    splitCh sep (a ++ sep :: b) = [a, b] := by
  induction a with
  | nil => simp [splitCh, splitCh_no_sep sep b hb]
  | cons c a ih =>
    have hcsep : ¬ c = sep := fun e => ha (e ▸ List.mem_cons_self c a)
    have ha' : sep ∉ a := fun hm => ha (List.mem_cons_of_mem c hm)
    simp [splitCh, hcsep, ih ha']

theorem trimSuffixS_concat (xs : List Char) : trimSuffixS (xs ++ ['s']) = xs := by
  simp [trimSuffixS, List.getLast?_concat, List.dropLast_concat]

theorem dropWhile_replicate_zero (k : Nat) (l : List Char) :
    List.dropWhile (fun c => decide (c = '0')) (List.replicate k '0' ++ l) =
      List.dropWhile (fun c => decide (c = '0')) l := by
  induction k with
  | zero => simp
  | succ k ih => simp [List.replicate_succ, List.dropWhile_cons, ih]

theorem trimLeftZeros_pad9 (n : Nat) (h : 1 ≤ n) :
    trimLeftZeros (pad9 n) = natDigits n := by
  obtain ⟨c, cs, heq, hc⟩ := natDigits_head_ne_zero n h
  simp only [trimLeftZeros, pad9, dropWhile_replicate_zero, heq,
    List.dropWhile_cons]
  simp [hc]

theorem dot_not_mem_pad9 (n : Nat) : '.' ∉ pad9 n := by
  intro h
  rcases List.mem_append.mp h with h | h
  · exact absurd (List.eq_of_mem_replicate h) (by decide)
  · exact dot_not_mem_of_digits (natDigits_all_digits n) h

/-! ## The duration round trip -/

theorem intDigits_natCast (q : Nat) : intDigits ((q : Nat) : Int) = natDigits q := by
  have hq : ¬ ((q : Nat) : Int) < 0 := not_lt.mpr (Int.natCast_nonneg q)
  simp only [intDigits, if_neg hq]
  rfl

theorem stringToDuration_mk (l : List Char) :
    stringToDuration (String.mk l) = stringToDurationL l := rfl

/-- Round trip of the duration codec: every non-negative `int64` duration
survives `durationToString` followed by `stringToDuration`. -/
theorem durationRoundTrip (d : Int) (h0 : 0 ≤ d) (h1 : d < 2 ^ 63) :
    stringToDuration (durationToString d) = .ok d := by
  lift d to ℕ using h0 with m
  have hm : m < 2 ^ 63 := by exact_mod_cast h1
  have hqr : m = 1000000000 * (m / 1000000000) + m % 1000000000 :=
    (Nat.div_add_mod m 1000000000).symm
  have hrlt : m % 1000000000 < 1000000000 := Nat.mod_lt _ (by omega)
  have hsec : ((m : Int)).tdiv 1000000000 = ((m / 1000000000 : Nat) : Int) := rfl
  have hnan : (m : Int) - ((m / 1000000000 : Nat) : Int) * 1000000000
      = ((m % 1000000000 : Nat) : Int) := by push_cast; omega
  have hqbound : m / 1000000000 ≤ 2 ^ 63 - 1 := by
    have := Nat.div_le_self m 1000000000; omega
  have hdotq : '.' ∉ natDigits (m / 1000000000) :=
    dot_not_mem_of_digits (natDigits_all_digits _)
  by_cases hr : 0 < m % 1000000000
  · have hpos : (0 : Int) < ((m % 1000000000 : Nat) : Int) := by exact_mod_cast hr
    have htonat : (((m % 1000000000 : Nat) : Int)).toNat = m % 1000000000 := rfl
    have hstr : durationToStringL (m : Int)
        = (natDigits (m / 1000000000) ++ '.' :: pad9 (m % 1000000000)) ++ ['s'] := by
      simp only [durationToStringL, hsec, hnan, if_pos hpos, htonat,
        intDigits_natCast]
      simp [List.append_assoc]
    rw [durationToString, stringToDuration_mk, hstr, stringToDurationL,
      trimSuffixS_concat,
      splitCh_two '.' _ _ hdotq (dot_not_mem_pad9 (m % 1000000000))]
    simp only [parseIntList_natDigits _ hqbound, trimLeftZeros_pad9 _ hr,
      parseIntList_natDigits (m % 1000000000)
        (by omega : m % 1000000000 ≤ 2 ^ 63 - 1), GoRes.ok_bind]
    show GoRes.ok _ = GoRes.ok _
    congr 1
    push_cast
    omega
  · have hneg : ¬ (0 : Int) < ((m % 1000000000 : Nat) : Int) := by
      simp only [not_lt]
      exact_mod_cast Nat.le_of_lt_succ (by omega)
    have hstr : durationToStringL (m : Int)
        = natDigits (m / 1000000000) ++ ['s'] := by
      simp only [durationToStringL, hsec, hnan, if_neg hneg, intDigits_natCast]
    rw [durationToString, stringToDuration_mk, hstr, stringToDurationL,
      trimSuffixS_concat, splitCh_no_sep '.' _ hdotq]
    simp only [parseIntList_natDigits _ hqbound, GoRes.ok_bind]
    show GoRes.ok _ = GoRes.ok _
    congr 1
    push_cast
    omega


/-! ## Generic result and string lemmas used by the claim theorems -/

theorem trimLeftZeros_replicate (k : Nat) :
    trimLeftZeros (List.replicate k '0') = [] := by
  have h := dropWhile_replicate_zero k []
  simp only [List.append_nil] at h
  simp [trimLeftZeros, h]

theorem seq_ne_err {x : GoRes Unit} {f : Unit → GoRes Unit} {e : String}
    (hx : x ≠ .err e) (hf : ∀ u, f u ≠ .err e) : (x >>= f) ≠ .err e := by
  cases x with
  | ok a => exact hf a
  | err e2 =>
    intro h
    exact hx (by simpa [Bind.bind] using h)
  | panics => simp [Bind.bind]

theorem parsePosDigits_ne_panics (ds : List Char) (neg : Bool) :
    parsePosDigits ds neg ≠ .panics := by
  unfold parsePosDigits
  split_ifs <;> simp

theorem parseIntList_ne_panics (cs : List Char) : parseIntList cs ≠ .panics := by
  match cs with
  | [] => simp [parseIntList]
  | c :: rest =>
    simp only [parseIntList]
    split_ifs <;> exact parsePosDigits_ne_panics _ _

theorem ne_of_head (x r : String) (c d : Char) (h1 : x.data.head? = some c)
    (h2 : r.data.head? = some d) (hne : c ≠ d) : x ≠ r := by
  intro he
  rw [he, h2] at h1
  exact hne (by simpa using h1.symm)

theorem append_data_ne_nil (p q : String) (hp : p.data ≠ []) :
    (p ++ q).data ≠ [] := by
  have hd : (p ++ q).data = p.data ++ q.data := rfl
  rw [hd]
  intro h
  exact hp (List.append_eq_nil.mp h).1

theorem head_append (p q : String) (hp : p.data ≠ []) :
    (p ++ q).data.head? = p.data.head? := by
  have hd : (p ++ q).data = p.data ++ q.data := rfl
  rw [hd]
  cases he : p.data with
  | nil => exact absurd he hp
  | cons a as => simp

theorem append_ne_of_head (p q r : String) (c d : Char)
    (h1 : p.data.head? = some c) (h2 : r.data.head? = some d)
    (hne : c ≠ d) : p ++ q ≠ r := by
  have hp : p.data ≠ [] := by
    intro he
    rw [he] at h1
    exact absurd h1 (by simp)
  exact ne_of_head (p ++ q) r c d (by rw [head_append p q hp]; exact h1) h2 hne

/-! ## Claim C2 -/

/-- C2: for every non-negative duration `d`,
`stringToDuration (durationToString d) = d`; in particular
`durationToString` of 90 whole seconds is `"90s"` and of 1.5 seconds is
`"1.500000000s"`. -/
theorem c2_duration_round_trip :
    (∀ d : Int, 0 ≤ d → d < 2 ^ 63 →
      stringToDuration (durationToString d) = .ok d)
    ∧ durationToString (90 * 1000000000) = "90s"
    ∧ durationToString 1500000000 = "1.500000000s" :=
  ⟨durationRoundTrip, by decide, by decide⟩

theorem c2_duration_round_trip_witness :
    stringToDuration (durationToString 1500000000) = .ok 1500000000 :=
  c2_duration_round_trip.1 1500000000 (by decide) (by decide)

/-! ## Claim C10 -/

/-- C10: a duration string whose fractional segment is made of zero digits
only is rejected by `stringToDuration` (the left-trim of `'0'` empties the
segment before the integer parse), and `durationToString` never produces
such a string — its output always parses back. -/
theorem c10_all_zero_fraction_rejected :
    (∀ (a : List Char) (k : Nat), '.' ∉ a → 1 ≤ k →
      (stringToDurationL (a ++ '.' :: (List.replicate k '0' ++ ['s']))).isErr = true)
    ∧ (∀ d : Int, 0 ≤ d → d < 2 ^ 63 →
      (stringToDuration (durationToString d)).isErr = false) := by
  constructor
  · intro a k ha hk
    have hassoc : a ++ '.' :: (List.replicate k '0' ++ ['s'])
        = (a ++ '.' :: List.replicate k '0') ++ ['s'] := by simp
    have hzero : '.' ∉ List.replicate k '0' := by
      intro hm
      exact absurd (List.eq_of_mem_replicate hm) (by decide)
    rw [hassoc, stringToDurationL, trimSuffixS_concat,
      splitCh_two '.' _ _ ha hzero]
    cases hpa : parseIntList a with
    | ok v =>
      have hnil : parseIntList ([] : List Char) = .err "invalid syntax" := rfl
      simp [hpa, trimLeftZeros_replicate, hnil, GoRes.ok_bind, GoRes.err_bind,
        GoRes.isErr]
    | err e => simp [hpa, GoRes.err_bind, GoRes.isErr]
    | panics => exact absurd hpa (parseIntList_ne_panics a)
  · intro d h0 h1
    rw [durationRoundTrip d h0 h1]
    rfl

theorem c10_all_zero_fraction_rejected_witness :
    (stringToDuration "1.000000000s").isErr = true := by
  have h := c10_all_zero_fraction_rejected.1 ['1'] 9 (by decide) (by decide)
  exact h

/-! ## Claim C8 -/

/-- C8 counterexample: the claim says the fractional segment is parsed
"after stripping trailing zeros", but on `"1.500000000s"` that procedure
yields 1 second and 5 nanoseconds while the source (which strips LEADING
zeros via `strings.TrimLeft`) yields 1.5 seconds. -/
theorem c8_counterexample :
    stringToDuration "1.500000000s" = .ok 1500000000
    ∧ stringToDurationC8Spec "1.500000000s" = .ok 1000000005
    ∧ (1500000000 : Int) ≠ 1000000005 :=
  ⟨by decide, by decide, by decide⟩

/-- C8 amended: decoding strips the trailing `"s"`, splits on `"."`, rejects
a segment count other than 1 or 2, parses the first segment as integer
seconds and the second (if present) as integer nanoseconds after stripping
LEADING zeros, and rejects non-numeric segments — the source equals this
procedure at every input. -/
theorem c8_amended_decode_procedure :
    ∀ s : String, stringToDuration s = stringToDurationC8Amended s := by
  intro s
  rw [stringToDuration, stringToDurationC8Amended]
  cases h : splitCh '.' (trimSuffixS s.data) with
  | nil => simp [stringToDurationL, h]
  | cons a t =>
    cases t with
    | nil => simp [stringToDurationL, h]
    | cons b t2 =>
      cases t2 with
      | nil => simp [stringToDurationL, h]
      | cons c t3 => simp [stringToDurationL, h]

/-! ## Claim C1: no later validation rule reuses the exclusivity message -/

theorem validateNotification_ne_excl (o : Option Notification) :
    validateNotification o ≠
      .err "exactly one of token, topic or condition must be specified" := by
  cases o with
  | none => decide
  | some n =>
    simp only [validateNotification]
    split
    · intro h
      have hs : "invalid image URL: " ++ goQuote n.imageURL
          = "exactly one of token, topic or condition must be specified" := by
        simpa using h
      exact append_ne_of_head _ _ _ 'i' 'e' (by decide) (by decide) (by decide) hs
    · simp

theorem validateLightSettings_ne_excl (o : Option LightSettings) :
    validateLightSettings o ≠
      .err "exactly one of token, topic or condition must be specified" := by
  cases o with
  | none => decide
  | some l =>
    simp only [validateLightSettings]
    split_ifs <;> decide

theorem validateAndroidNotification_ne_excl (o : Option AndroidNotification) :
    validateAndroidNotification o ≠
      .err "exactly one of token, topic or condition must be specified" := by
  cases o with
  | none => decide
  | some n =>
    simp only [validateAndroidNotification]
    split_ifs
    · decide
    · decide
    · decide
    · intro h
      have hs : "invalid image URL: " ++ goQuote n.imageURL
          = "exactly one of token, topic or condition must be specified" := by
        simpa using h
      exact append_ne_of_head _ _ _ 'i' 'e' (by decide) (by decide) (by decide) hs
    · decide
    · exact validateLightSettings_ne_excl n.lightSettings

theorem validateAndroidConfig_ne_excl (o : Option AndroidConfig) :
    validateAndroidConfig o ≠
      .err "exactly one of token, topic or condition must be specified" := by
  cases o with
  | none => decide
  | some c =>
    simp only [validateAndroidConfig]
    split_ifs
    · decide
    · decide
    · exact validateAndroidNotification_ne_excl c.notification

theorem validateApsAlert_ne_excl (o : Option ApsAlert) :
    validateApsAlert o ≠
      .err "exactly one of token, topic or condition must be specified" := by
  cases o with
  | none => decide
  | some alert =>
    simp only [validateApsAlert]
    split_ifs <;> decide

theorem validateApsTail_ne_excl (a : Aps) :
    validateApsTail a ≠
      .err "exactly one of token, topic or condition must be specified" := by
  unfold validateApsTail
  cases hf : (a.customData.getD []).find?
      (fun kv => (a.standardFields.map Prod.fst).contains kv.1) with
  | some kv =>
    intro h
    have hs : "multiple specifications for the key: " ++ goQuote kv.1
        = "exactly one of token, topic or condition must be specified" := by
      simpa using h
    exact append_ne_of_head _ _ _ 'm' 'e' (by decide) (by decide) (by decide) hs
  | none => exact validateApsAlert_ne_excl a.alert

theorem validateAps_ne_excl (o : Option Aps) :
    validateAps o ≠
      .err "exactly one of token, topic or condition must be specified" := by
  cases o with
  | none => decide
  | some a =>
    simp only [validateAps]
    split
    · decide
    · cases a.criticalSound with
      | some cs =>
        simp only []
        split_ifs
        · decide
        · decide
        · exact validateApsTail_ne_excl a
      | none => exact validateApsTail_ne_excl a

theorem validateAPNSPayload_ne_excl (o : Option APNSPayload) :
    validateAPNSPayload o ≠
      .err "exactly one of token, topic or condition must be specified" := by
  cases o with
  | none => decide
  | some p =>
    simp only [validateAPNSPayload]
    cases hf : (p.customData.getD []).find?
        (fun kv => (p.standardFields.map Prod.fst).contains kv.1) with
    | some kv =>
      intro h
      have hs : "multiple specifications for the key " ++ goQuote kv.1
          = "exactly one of token, topic or condition must be specified" := by
        simpa using h
      exact append_ne_of_head _ _ _ 'm' 'e' (by decide) (by decide) (by decide) hs
    | none => exact validateAps_ne_excl p.aps

theorem validateAPNSConfig_ne_excl (o : Option APNSConfig) :
    validateAPNSConfig o ≠
      .err "exactly one of token, topic or condition must be specified" := by
  cases o with
  | none => decide
  | some c =>
    simp only [validateAPNSConfig]
    cases c.fcmOptions with
    | some o2 =>
      simp only []
      split
      · intro h
        have hs : "invalid image URL: " ++ goQuote o2.imageURL
            = "exactly one of token, topic or condition must be specified" := by
          simpa using h
        exact append_ne_of_head _ _ _ 'i' 'e' (by decide) (by decide) (by decide) hs
      · exact validateAPNSPayload_ne_excl c.payload
    | none => exact validateAPNSPayload_ne_excl c.payload

theorem validateWebpushConfig_ne_excl (o : Option WebpushConfig) :
    validateWebpushConfig o ≠
      .err "exactly one of token, topic or condition must be specified" := by
  cases o with
  | none => decide
  | some w =>
    simp only [validateWebpushConfig]
    cases w.notification with
    | none => simp
    | some n =>
      simp only []
      split_ifs
      · decide
      · cases hf : (n.customData.getD []).find?
            (fun kv => (n.standardFields.map Prod.fst).contains kv.1) with
        | some kv =>
          intro h
          have hs : "multiple specifications for the key " ++ goQuote kv.1
              = "exactly one of token, topic or condition must be specified" := by
            simpa using h
          exact append_ne_of_head _ _ _ 'm' 'e' (by decide) (by decide) (by decide) hs
        | none =>
          cases w.fcmOptions with
          | none => simp
          | some o2 =>
            simp only []
            cases parseRequestURI o2.link with
            | err e =>
              intro h
              have hs : "invalid link URL: " ++ goQuote o2.link
                  = "exactly one of token, topic or condition must be specified" := by
                simpa using h
              exact append_ne_of_head _ _ _ 'i' 'e' (by decide) (by decide) (by decide) hs
            | panics => simp
            | ok p =>
              simp only []
              split
              · intro h
                have hs : "invalid link URL: " ++ goQuote o2.link ++
                    "; want scheme: " ++ goQuote "https"
                    = "exactly one of token, topic or condition must be specified" := by
                  simpa using h
                have hhead : ("invalid link URL: " ++ goQuote o2.link ++
                    "; want scheme: ").data.head? = some 'i' := by
                  rw [head_append _ _ (append_data_ne_nil _ _ (by decide)),
                    head_append _ _ (by decide)]
                  decide
                exact append_ne_of_head _ _ _ 'i' 'e' hhead (by decide) (by decide) hs
              · simp

theorem validateMessageRest_ne_excl (m : Message) :
    validateMessageRest m ≠
      .err "exactly one of token, topic or condition must be specified" := by
  simp only [validateMessageRest]
  split
  · decide
  · exact seq_ne_err (validateNotification_ne_excl m.notification)
      (fun _ => seq_ne_err (validateAndroidConfig_ne_excl m.android)
        (fun _ => seq_ne_err (validateWebpushConfig_ne_excl m.webpush)
          (fun _ => validateAPNSConfig_ne_excl m.apns)))

/-- C1: validation of the targeting fields fails exactly when the number of
non-empty fields among token, topic, condition differs from one: then
`validateMessage` returns the exclusivity error, and with exactly one
non-empty that check passes and the result is that of the remaining rules
(`validateMessageRest`), which never reuse the exclusivity message. -/
theorem c1_targeting_exclusivity (m : Message) :
    (countNonEmpty [m.token, m.condition, m.topic] ≠ 1 →
      validateMessage m =
        .err "exactly one of token, topic or condition must be specified")
    ∧ (countNonEmpty [m.token, m.condition, m.topic] = 1 →
      validateMessage m = validateMessageRest m)
    ∧ (validateMessage m =
        .err "exactly one of token, topic or condition must be specified"
      ↔ countNonEmpty [m.token, m.condition, m.topic] ≠ 1) := by
  refine ⟨?_, ?_, ?_, ?_⟩
  · intro h
    simp [validateMessage, h]
  · intro h
    simp [validateMessage, h]
  · intro h
    by_contra hc
    rw [validateMessage, if_neg (show ¬ countNonEmpty [m.token, m.condition, m.topic] ≠ 1 from by simp [hc])] at h
    exact validateMessageRest_ne_excl m h
  · intro h
    simp [validateMessage, h]

theorem c1_targeting_exclusivity_witness :
    validateMessage
      { data := [], notification := none, android := none, webpush := none,
        apns := none, fcmOptions := none, token := "abc", topic := "",
        condition := "" }
    = validateMessageRest
      { data := [], notification := none, android := none, webpush := none,
        apns := none, fcmOptions := none, token := "abc", topic := "",
        condition := "" } :=
  (c1_targeting_exclusivity _).2.1 (by decide)

/-! ## Claim C4 -/

/-- C4: `Aps.standardFields` carries the `content-available` key exactly when
`ContentAvailable` is true and then only with integer value 1 (never 0, and
the key is absent when false); decoding an aps object yields
`ContentAvailable = true` exactly when the wire value of
`content-available` equals the number 1 — any other value, 0 and an absent
field included, decodes to false. -/
theorem c4_content_available_flag :
    (∀ (a : Aps) (v : Json),
      ("content-available", v) ∈ a.standardFields ↔
        (a.contentAvailable = true ∧ v = Json.num 1))
    ∧ (∀ (kvs : List (String × Json)) (a : Aps),
        decodeAps (Json.obj kvs) = .ok a →
        (a.contentAvailable = true ↔
          lookupJ kvs "content-available" = some (Json.num 1))) := by
  constructor
  · intro a v
    constructor
    · intro hm
      simp only [Aps.standardFields, List.mem_append] at hm
      rcases hm with ((((((h | h) | h) | h) | h) | h) | h)
      · exfalso
        cases hal : a.alert with
        | some al2 => rw [hal] at h; simp at h
        | none =>
          rw [hal] at h
          by_cases hs : a.alertString = "" <;> simp [hs] at h
      · by_cases hca : a.contentAvailable = true
        · simp [hca] at h
          exact ⟨hca, h⟩
        · simp [hca] at h
      · exfalso; by_cases hmc : a.mutableContent = true <;> simp [hmc] at h
      · exfalso; cases hb : a.badge <;> rw [hb] at h <;> simp at h
      · exfalso
        cases hcs : a.criticalSound with
        | some cs2 => rw [hcs] at h; simp at h
        | none =>
          rw [hcs] at h
          by_cases hsn : a.sound = "" <;> simp [hsn] at h
      · exfalso; by_cases hc : a.category = "" <;> simp [jStrOpt, hc] at h
      · exfalso; by_cases ht : a.threadID = "" <;> simp [jStrOpt, ht] at h
    · rintro ⟨hca, rfl⟩
      simp [Aps.standardFields, List.mem_append, hca]
  · intro kvs a h
    simp only [decodeAps] at h
    obtain ⟨caInt, hca, h⟩ := GoRes.bind_eq_ok h
    obtain ⟨mcInt, hmc, h⟩ := GoRes.bind_eq_ok h
    obtain ⟨badge, hb, h⟩ := GoRes.bind_eq_ok h
    obtain ⟨category, hcat, h⟩ := GoRes.bind_eq_ok h
    obtain ⟨threadID, htid, h⟩ := GoRes.bind_eq_ok h
    obtain ⟨alertPair, hal, h⟩ := GoRes.bind_eq_ok h
    obtain ⟨soundPair, hsnd, h⟩ := GoRes.bind_eq_ok h
    have h2 : GoRes.ok (apsAttachCustom kvs
        { alertString := alertPair.2, alert := alertPair.1, badge := badge,
          sound := soundPair.2, criticalSound := soundPair.1,
          contentAvailable := caInt == 1, mutableContent := mcInt == 1,
          category := category, threadID := threadID, customData := none })
        = GoRes.ok a := h
    simp only [GoRes.ok.injEq] at h2
    have hfield : a.contentAvailable = (caInt == 1) := by
      rw [← h2]
      simp [apsAttachCustom]
    rw [hfield]
    cases hl : lookupJ kvs "content-available" with
    | none =>
      simp [goDecInt, hl] at hca
      subst hca
      simp
    | some v =>
      cases v with
      | null =>
        simp [goDecInt, hl] at hca
        subst hca
        simp
      | num q =>
        simp only [goDecInt, hl] at hca
        split_ifs at hca with hd
        · simp only [GoRes.ok.injEq] at hca
          subst hca
          constructor
          · intro hq
            have hq1 : q.num = 1 := by simpa using hq
            have hq2 : q = 1 := by
              apply Rat.ext <;> simp [hq1, hd, Rat.num_one, Rat.den_one]
            simp [hq2]
          · intro hq
            have hq1 : q = 1 := by simpa using hq
            simp [hq1]
      | bool b => simp [goDecInt, hl] at hca
      | str s => simp [goDecInt, hl] at hca
      | arr xs => simp [goDecInt, hl] at hca
      | obj kvs2 => simp [goDecInt, hl] at hca

theorem c4_content_available_flag_witness :
    (({ alertString := "", alert := none, badge := none, sound := "",
        criticalSound := none, contentAvailable := true,
        mutableContent := false, category := "", threadID := "",
        customData := none : Aps }).contentAvailable = true
      ↔ lookupJ [("content-available", Json.num 1)] "content-available"
          = some (Json.num 1)) :=
  c4_content_available_flag.2 [("content-available", Json.num 1)] _ rfl

/-! ## Claim C3 -/

theorem standardFields_set_custom (n : WebpushNotification)
    (c : Option (List (String × Json))) :
    WebpushNotification.standardFields { n with customData := c }
      = n.standardFields := by
  cases n
  rfl

theorem mem_dropKeys (kvs : List (String × Json)) (keys : List String)
    (k : String) (v : Json) :
    (k, v) ∈ dropKeys kvs keys ↔ ((k, v) ∈ kvs ∧ k ∉ keys) := by
  simp [dropKeys, List.mem_filter]

/-- C3 counterexample: decoding the wire object with the single binding
`"title": ""` — a key that belongs to the standard-field set — leaves that
key in `CustomData`, because the deletion loop iterates over
`standardFields()` of the DECODED value, which omits empty fields; the claim
says every standard-set key is removed regardless. -/
theorem c3_counterexample :
    decodeWebpushNotification (Json.obj [("title", Json.str "")])
      = .ok
        { actions := [], title := "", body := "", icon := "", badge := "",
          direction := "", data := none, image := "", language := "",
          renotify := false, requireInteraction := false, silent := false,
          tag := "", timestampMillis := none, vibrate := [],
          customData := some [("title", Json.str "")] }
    ∧ "title" ∈ webpushStandardKeyNames :=
  ⟨rfl, by decide⟩

/-- C3 amended: after decoding a wire object, the custom-field bag holds
exactly the bindings whose key is NOT among the keys of `standardFields()`
of the decoded value — i.e. only standard keys that decoded to a non-empty /
non-default field are removed; a standard key carried with an empty or
default value stays in the bag. -/
theorem c3_amended_custom_bag (kvs : List (String × Json))
    (n : WebpushNotification)
    (h : decodeWebpushNotification (Json.obj kvs) = .ok n)
    (k : String) (v : Json) :
    (k, v) ∈ n.customData.getD []
      ↔ ((k, v) ∈ kvs ∧ k ∉ n.standardFields.map Prod.fst) := by
  simp only [decodeWebpushNotification] at h
  obtain ⟨actions, h01, h⟩ := GoRes.bind_eq_ok h
  obtain ⟨title, h02, h⟩ := GoRes.bind_eq_ok h
  obtain ⟨body, h03, h⟩ := GoRes.bind_eq_ok h
  obtain ⟨icon, h04, h⟩ := GoRes.bind_eq_ok h
  obtain ⟨badge, h05, h⟩ := GoRes.bind_eq_ok h
  obtain ⟨direction, h06, h⟩ := GoRes.bind_eq_ok h
  obtain ⟨image, h07, h⟩ := GoRes.bind_eq_ok h
  obtain ⟨language, h08, h⟩ := GoRes.bind_eq_ok h
  obtain ⟨renotify, h09, h⟩ := GoRes.bind_eq_ok h
  obtain ⟨requireInteraction, h10, h⟩ := GoRes.bind_eq_ok h
  obtain ⟨silent, h11, h⟩ := GoRes.bind_eq_ok h
  obtain ⟨tag, h12, h⟩ := GoRes.bind_eq_ok h
  obtain ⟨timestampMillis, h13, h⟩ := GoRes.bind_eq_ok h
  obtain ⟨vibrate, h14, h⟩ := GoRes.bind_eq_ok h
  have h2 : GoRes.ok (webpushAttachCustom kvs
      { actions := actions, title := title, body := body, icon := icon,
        badge := badge, direction := direction, data := goDecAnyData kvs,
        image := image, language := language, renotify := renotify,
        requireInteraction := requireInteraction, silent := silent,
        tag := tag, timestampMillis := timestampMillis, vibrate := vibrate,
        customData := none }) = GoRes.ok n := h
  simp only [GoRes.ok.injEq] at h2
  subst h2
  rw [webpushAttachCustom, standardFields_set_custom]
  simp only [customBag]
  split_ifs with he
  · have hdrop : dropKeys kvs (WebpushNotification.standardFields
        { actions := actions, title := title, body := body, icon := icon,
          badge := badge, direction := direction, data := goDecAnyData kvs,
          image := image, language := language, renotify := renotify,
          requireInteraction := requireInteraction, silent := silent,
          tag := tag, timestampMillis := timestampMillis, vibrate := vibrate,
          customData := none } |>.map Prod.fst) = [] :=
      List.isEmpty_iff.mp he
    constructor
    · intro hm
      simp at hm
    · rintro ⟨hv, hk⟩
      have : (k, v) ∈ dropKeys kvs (WebpushNotification.standardFields
          { actions := actions, title := title, body := body, icon := icon,
            badge := badge, direction := direction, data := goDecAnyData kvs,
            image := image, language := language, renotify := renotify,
            requireInteraction := requireInteraction, silent := silent,
            tag := tag, timestampMillis := timestampMillis, vibrate := vibrate,
            customData := none } |>.map Prod.fst) :=
        (mem_dropKeys _ _ _ _).mpr ⟨hv, hk⟩
      rw [hdrop] at this
      simp at this
  · simp only [Option.getD_some]
    exact mem_dropKeys _ _ _ _

theorem c3_amended_custom_bag_witness :
    (("title", Json.str "") ∈
        (some [("title", Json.str "")] : Option (List (String × Json))).getD []
      ↔ (("title", Json.str "") ∈ [("title", Json.str "")]
          ∧ "title" ∉ (WebpushNotification.standardFields
              { actions := [], title := "", body := "", icon := "", badge := "",
                direction := "", data := none, image := "", language := "",
                renotify := false, requireInteraction := false, silent := false,
                tag := "", timestampMillis := none, vibrate := [],
                customData := some [("title", Json.str "")] }).map Prod.fst)) :=
  c3_amended_custom_bag [("title", Json.str "")] _ rfl "title" (Json.str "")

/-! ## Claim C6 -/

theorem lookupJ_eq_none (xs : List (String × Json)) (k : String)
    (h : ∀ kv ∈ xs, kv.1 ≠ k) : lookupJ xs k = none := by
  induction xs with
  | nil => rfl
  | cons kv rest ih =>
    obtain ⟨k2, v⟩ := kv
    have hk2 : ¬ k2 = k := h (k2, v) (by simp)
    simp only [lookupJ, if_neg hk2]
    exact ih (fun kv2 hm => h kv2 (by simp [hm]))

theorem messageRestPairs_keys (m : Message) (aj : Option Json) :
    ∀ kv ∈ messageRestPairs m aj, kv.1 ≠ "topic" := by
  intro kv hm
  simp only [messageRestPairs, List.mem_append] at hm
  rcases hm with (((((((h | h) | h) | h) | h) | h) | h) | h)
  · by_cases hd : m.data.isEmpty
    · simp [hd] at h
    · simp [hd] at h
      subst h
      simp
  · cases hn : m.notification with
    | none => simp [hn] at h
    | some n =>
      simp [hn] at h
      subst h
      simp
  · cases haj : aj with
    | none => simp [haj] at h
    | some x =>
      simp [haj] at h
      subst h
      simp
  · cases hw : m.webpush with
    | none => simp [hw] at h
    | some w =>
      simp [hw] at h
      subst h
      simp
  · cases hap : m.apns with
    | none => simp [hap] at h
    | some a =>
      simp [hap] at h
      subst h
      simp
  · cases hf : m.fcmOptions with
    | none => simp [hf] at h
    | some o =>
      simp [hf] at h
      subst h
      simp
  · by_cases ht : m.token = ""
    · simp [jStrOpt, ht] at h
    · simp [jStrOpt, ht] at h
      subst h
      simp
  · by_cases hc : m.condition = ""
    · simp [jStrOpt, hc] at h
    · simp [jStrOpt, hc] at h
      subst h
      simp

/-- C6 counterexample: the decoder stores the wire `"topic"` value VERBATIM —
decoding an object whose topic carries the `/topics/` prefix stores the
prefixed string, so the stored value is not in bare form (trimming changes
it); the claim says the prefix is stripped on decode. -/
theorem c6_counterexample :
    decodeMessage (Json.obj [("topic", Json.str "/topics/x")])
      = .ok
        { data := [], notification := none, android := none, webpush := none,
          apns := none, fcmOptions := none, token := "",
          topic := "/topics/x", condition := "" }
    ∧ stripTopics "/topics/x" ≠ "/topics/x" :=
  ⟨rfl, by decide⟩

/-- C6 amended: the `/topics/` prefix is stripped on ENCODE —
`Message.MarshalJSON` emits the trimmed topic under `"topic"` (omitting the
key when the trimmed form is empty) — while DECODE stores the wire topic
value verbatim, so the stored form is bare exactly when the wire value is. -/
theorem c6_amended_topic_prefix :
    (∀ (m : Message) (j : Json), m.marshal = .ok j →
      ∃ kvs, j = Json.obj kvs ∧ lookupJ kvs "topic" =
        (if stripTopics m.topic = "" then none
         else some (Json.str (stripTopics m.topic))))
    ∧ (∀ (kvs : List (String × Json)) (m : Message) (s : String),
        decodeMessage (Json.obj kvs) = .ok m →
        lookupJ kvs "topic" = some (Json.str s) → m.topic = s) := by
  constructor
  · intro m j h
    have main : ∀ aj : Option Json,
        lookupJ (jStrOpt "topic" (stripTopics m.topic) ++ messageRestPairs m aj)
          "topic" =
        (if stripTopics m.topic = "" then none
         else some (Json.str (stripTopics m.topic))) := by
      intro aj
      by_cases hb : stripTopics m.topic = ""
      · rw [if_pos hb]
        simp only [jStrOpt, if_pos hb, List.nil_append]
        exact lookupJ_eq_none _ _ (messageRestPairs_keys m aj)
      · rw [if_neg hb]
        simp [jStrOpt, if_neg hb, lookupJ]
    cases hma : m.android with
    | none =>
      simp only [Message.marshal, hma] at h
      have h2 : GoRes.ok (Json.obj (jStrOpt "topic" (stripTopics m.topic)
          ++ messageRestPairs m none)) = GoRes.ok j := h
      simp only [GoRes.ok.injEq] at h2
      subst h2
      exact ⟨_, rfl, main none⟩
    | some a =>
      simp only [Message.marshal, hma] at h
      obtain ⟨x, hx, h⟩ := GoRes.bind_eq_ok h
      have h2 : GoRes.ok (Json.obj (jStrOpt "topic" (stripTopics m.topic)
          ++ messageRestPairs m (some x))) = GoRes.ok j := h
      simp only [GoRes.ok.injEq] at h2
      subst h2
      exact ⟨_, rfl, main (some x)⟩
  · intro kvs m s h hl
    simp only [decodeMessage] at h
    obtain ⟨bareTopicStr, h1, h⟩ := GoRes.bind_eq_ok h
    obtain ⟨data, h2, h⟩ := GoRes.bind_eq_ok h
    obtain ⟨notification, h3, h⟩ := GoRes.bind_eq_ok h
    obtain ⟨android, h4, h⟩ := GoRes.bind_eq_ok h
    obtain ⟨webpush, h5, h⟩ := GoRes.bind_eq_ok h
    obtain ⟨apns, h6, h⟩ := GoRes.bind_eq_ok h
    obtain ⟨fcmOptions, h7, h⟩ := GoRes.bind_eq_ok h
    obtain ⟨token, h8, h⟩ := GoRes.bind_eq_ok h
    obtain ⟨condition, h9, h⟩ := GoRes.bind_eq_ok h
    have h10 : GoRes.ok
        ({ data := data, notification := notification, android := android,
           webpush := webpush, apns := apns, fcmOptions := fcmOptions,
           token := token, topic := bareTopicStr,
           condition := condition : Message }) = GoRes.ok m := h
    simp only [GoRes.ok.injEq] at h10
    subst h10
    simp only [goDecStr, hl] at h1
    simp only [GoRes.ok.injEq] at h1
    subst h1
    rfl

theorem c6_amended_topic_prefix_witness :
    ({ data := [], notification := none, android := none, webpush := none,
       apns := none, fcmOptions := none, token := "", topic := "x",
       condition := "" : Message }).topic = "x" :=
  c6_amended_topic_prefix.2 [("topic", Json.str "x")] _ "x" rfl rfl

/-! ## Claim C5 -/

/-- C5 counterexample: a message whose web-push options block is present but
has NO link set fails validation — `validateWebpushConfig` feeds the empty
link to `ParseRequestURI` unconditionally, which rejects the empty string —
while the claim says such a message passes the link check. -/
theorem c5_counterexample :
    validateMessage
      { data := [], notification := none, android := none,
        webpush := some
          { headers := [], data := [],
            notification := some
              { actions := [], title := "", body := "", icon := "",
                badge := "", direction := "", data := none, image := "",
                language := "", renotify := false,
                requireInteraction := false, silent := false, tag := "",
                timestampMillis := none, vibrate := [], customData := none },
            fcmOptions := some { link := "" } },
        apns := none, fcmOptions := none, token := "t", topic := "",
        condition := "" }
    = .err ("invalid link URL: " ++ goQuote "") := rfl

/-- C5 amended: the options link is validated whenever the web-push block,
its notification override and the options block are ALL present — then the
link, the empty string included, must parse through `ParseRequestURI` with
scheme exactly `https`, and an options block with no link set fails with an
invalid-link error (the empty string does not parse); when the web-push
block or its notification override is absent the whole web-push validation,
link check included, is skipped. -/
theorem c5_amended_link_validation :
    (∀ w : WebpushConfig, w.notification = none →
      validateWebpushConfig (some w) = .ok ())
    ∧ (∀ (w : WebpushConfig) (n : WebpushNotification),
        w.notification = some n →
        (n.direction = "" ∨ n.direction = "ltr" ∨ n.direction = "rtl" ∨
          n.direction = "auto") →
        (n.customData.getD []).find?
          (fun kv => (n.standardFields.map Prod.fst).contains kv.1) = none →
        validateWebpushConfig (some w) =
          (match w.fcmOptions with
           | none => .ok ()
           | some o =>
             match parseRequestURI o.link with
             | .err _ => .err ("invalid link URL: " ++ goQuote o.link)
             | .panics => .panics
             | .ok p =>
               if p.scheme ≠ "https" then
                 .err ("invalid link URL: " ++ goQuote o.link ++
                   "; want scheme: " ++ goQuote "https")
               else .ok ()))
    ∧ parseRequestURI "" = .err "empty url" := by
  refine ⟨?_, ?_, rfl⟩
  · intro w hn
    simp [validateWebpushConfig, hn]
  · intro w n hn hdir hcol
    have hC : ¬ (n.direction ≠ "" ∧ n.direction ≠ "ltr" ∧
        n.direction ≠ "rtl" ∧ n.direction ≠ "auto") := by
      rcases hdir with h | h | h | h <;> simp [h]
    simp only [validateWebpushConfig, hn, if_neg hC, hcol]

theorem c5_amended_link_validation_witness :
    validateWebpushConfig (some
      { headers := [], data := [],
        notification := some
          { actions := [], title := "", body := "", icon := "", badge := "",
            direction := "", data := none, image := "", language := "",
            renotify := false, requireInteraction := false, silent := false,
            tag := "", timestampMillis := none, vibrate := [],
            customData := none },
        fcmOptions := none }) = .ok () :=
  (c5_amended_link_validation.2.1
    { headers := [], data := [],
      notification := some
        { actions := [], title := "", body := "", icon := "", badge := "",
          direction := "", data := none, image := "", language := "",
          renotify := false, requireInteraction := false, silent := false,
          tag := "", timestampMillis := none, vibrate := [],
          customData := none },
      fcmOptions := none }
    { actions := [], title := "", body := "", icon := "", badge := "",
      direction := "", data := none, image := "", language := "",
      renotify := false, requireInteraction := false, silent := false,
      tag := "", timestampMillis := none, vibrate := [],
      customData := none }
    rfl (Or.inl rfl) rfl).trans rfl

/-! ## Claim C7 -/

theorem ratTrunc_channel (k : Int) : ratTrunc ((k : ℚ) / 255 * 255) = k := by
  have hk : ((k : ℚ) / 255 * 255) = (k : ℚ) := by field_simp
  rw [ratTrunc, hk, Rat.num_intCast, Rat.den_intCast]
  simp [Int.tdiv_one]

/-- C7: evaluating the encoder at the failing input. The color decoded from
`"#0A0B0C"` is opaque (alpha 255), yet `toString` formats each channel with
unpadded `%X` and produces the 3-hex-digit `"#ABC"`, not a 6-hex-digit
`#RRGGBB` string; the output even fails the repository's own
`colorWithAlphaPattern`, so no decoded light-settings color with a channel
below 16 can re-validate. -/
theorem c7_unpadded_hex_encoding :
    (newColor "#0A0B0C" >>= fun c => GoRes.ok (color.toString c)) = .ok "#ABC"
    ∧ colorWithAlphaPatternOK "#ABC" = false := by
  have h1 : newColor "#0A0B0C" = .ok
      { red := ((10 : Int) : ℚ) / 255, green := ((11 : Int) : ℚ) / 255,
        blue := ((12 : Int) : ℚ) / 255, alpha := ((255 : Int) : ℚ) / 255 } := rfl
  have h2 : color.toString
      { red := ((10 : Int) : ℚ) / 255, green := ((11 : Int) : ℚ) / 255,
        blue := ((12 : Int) : ℚ) / 255, alpha := ((255 : Int) : ℚ) / 255 }
      = "#ABC" := by
    unfold color.toString
    simp only [ratTrunc_channel]
    decide
  rw [h1, GoRes.ok_bind, h2]
  exact ⟨rfl, by decide⟩

/-! ## Claim C9 -/

theorem newColor_short_not_ok (s : String) (h : s.data.length < 7) (c : color) :
    newColor s ≠ .ok c := by
  intro hok
  simp only [newColor] at hok
  obtain ⟨rs, h1, hok⟩ := GoRes.bind_eq_ok hok
  have h3 : 3 ≤ s.data.length := by
    by_contra hlt
    have hg : goSlice s.data 1 3 = .panics := by
      unfold goSlice
      rw [if_neg (by omega : ¬ (1 ≤ 3 ∧ 3 ≤ s.data.length))]
    rw [hg] at h1
    exact absurd h1 (by simp)
  obtain ⟨red, h2, hok⟩ := GoRes.bind_eq_ok hok
  obtain ⟨gs, h3b, hok⟩ := GoRes.bind_eq_ok hok
  have h5 : 5 ≤ s.data.length := by
    by_contra hlt
    have hg : goSlice s.data 3 5 = .panics := by
      unfold goSlice
      rw [if_neg (by omega : ¬ (3 ≤ 5 ∧ 5 ≤ s.data.length))]
    rw [hg] at h3b
    exact absurd h3b (by simp)
  obtain ⟨green, h4, hok⟩ := GoRes.bind_eq_ok hok
  obtain ⟨bs, h5b, hok⟩ := GoRes.bind_eq_ok hok
  have h7 : 7 ≤ s.data.length := by
    by_contra hlt
    have hg : goSlice s.data 5 7 = .panics := by
      unfold goSlice
      rw [if_neg (by omega : ¬ (5 ≤ 7 ∧ 7 ≤ s.data.length))]
    rw [hg] at h5b
    exact absurd h5b (by simp)
  omega

/-- C9 counterexample: the claim says every `LightSettings` whose color is
shorter than 7 characters panics and never returns an error, but on
`"xyz"` (length 3) the first channel slice `[1:3]` is in range, its hex
parse FAILS, and `MarshalJSON` returns that error — no panic occurs. -/
theorem c9_counterexample :
    (LightSettings.marshal
      { color := "xyz", lightOnDurationMillis := 0,
        lightOffDurationMillis := 0 }).isErr = true
    ∧ ("xyz" : String).data.length < 7 :=
  ⟨rfl, by decide⟩

/-- C9 amended: encoding is not total — for every `LightSettings` whose
color string is shorter than 7 characters `MarshalJSON` never succeeds: it
panics on the out-of-bounds slice whenever that slice is reached (in
particular for every color shorter than 3 characters, the empty string
included), and otherwise returns a channel-parse error; the 6-or-8-hex-digit
shape is enforced only by the separate validation engine, never by the
encoder. -/
theorem c9_amended_short_color_never_ok (l : LightSettings)
    (h : l.color.data.length < 7) :
    (∀ j : Json, LightSettings.marshal l ≠ .ok j)
    ∧ (l.color.data.length < 3 → LightSettings.marshal l = .panics) := by
  constructor
  · intro j hok
    simp only [LightSettings.marshal] at hok
    obtain ⟨clr, hc, hok⟩ := GoRes.bind_eq_ok hok
    exact newColor_short_not_ok l.color h clr hc
  · intro h3
    have hg : goSlice l.color.data 1 3 = .panics := by
      unfold goSlice
      rw [if_neg (by omega : ¬ (1 ≤ 3 ∧ 3 ≤ l.color.data.length))]
    simp only [LightSettings.marshal, newColor, hg, GoRes.panics_bind]

theorem c9_amended_short_color_never_ok_witness :
    LightSettings.marshal
      { color := "", lightOnDurationMillis := 0, lightOffDurationMillis := 0 }
      = .panics :=
  (c9_amended_short_color_never_ok
    { color := "", lightOnDurationMillis := 0, lightOffDurationMillis := 0 }
    (by decide)).2 (by decide)
